import Mathlib

/-!
Shallow embedding of the CensorLab packet-processing pipeline and per-flow
policy engine, translated from the Rust sources:

* src/transport.rs       : ConnectionKey, construct_reset, the script-result
                           interpretation in TransportState::process
* src/censor/nfq.rs      : craft_resets
* src/censor/mod.rs      : allow/block lists, process_ip / process_transport
* src/watermark.rs       : the Delayer task (run_thread)
* src/program/program.rs : the register-machine ProgramVM and its optimiser
* src/program/env.rs     : Registers and the per-flow program environments
* src/program/packet.rs  : packet metadata structures

Modelling conventions: Rust f64 values are represented as exact rationals
(the values exercised by the development are all exactly representable);
i64 and i32 arithmetic is represented on ℤ, with wrapping made explicit
where the source relies on it (TcpSeqNumber addition, u8 arithmetic);
fallible operations return Except; values behind &mut are threaded through
explicitly.  The floating-point Shannon entropy of a payload is carried on
the packet as an uninterpreted rational (payload_entropy), since the log2
computation has no exact counterpart; no theorem below depends on it.
-/

namespace CensorLab

/-! ## IP addresses and address pairs (smoltcp wire types)

Ipv4Address and Ipv6Address are byte arrays ([u8; 4] and [u8; 16]) whose
derived Ord is lexicographic; IpAddress is an enum with the V4 variant
ordered before the V6 variant.  We model the byte arrays as byte lists and
translate the derived lexicographic comparison explicitly. -/

/-- Lexicographic comparison of byte lists, as derived for Rust byte arrays. -/
def bytesCompare : List Nat → List Nat → Ordering
  | [], [] => .eq
  | [], _ :: _ => .lt
  | _ :: _, [] => .gt
  | a :: as_, b :: bs =>
    match compare a b with
    | .lt => .lt
    | .gt => .gt
    | .eq => bytesCompare as_ bs

/-- An IP address: the smoltcp IpAddress enum (V4 before V6 in derived Ord). -/
inductive IpAddress where
  | v4 (bytes : List Nat)
  | v6 (bytes : List Nat)
deriving DecidableEq, Repr

namespace IpAddress

/-- Derived Ord on the smoltcp IpAddress enum: variant order first (Ipv4
before Ipv6), then lexicographic comparison of the address bytes. -/
def cmp : IpAddress → IpAddress → Ordering
  | .v4 a, .v4 b => bytesCompare a b
  | .v4 _, .v6 _ => .lt
  | .v6 _, .v4 _ => .gt
  | .v6 a, .v6 b => bytesCompare a b

/-- The Rust operator <= on IpAddress. -/
def le (a b : IpAddress) : Bool :=
  match cmp a b with
  | .gt => false
  | _ => true

end IpAddress

/-- The transport protocol tag (src/program/packet.rs). -/
inductive TransportProtocol where
  | tcp
  | udp
deriving DecidableEq, Repr

/-- A source/destination pair of IP addresses (src/censor/mod.rs IpPair). -/
inductive IpPair where
  | v4 (src dst : List Nat)
  | v6 (src dst : List Nat)
deriving DecidableEq, Repr

namespace IpPair

/-- Source address of the pair. -/
def src : IpPair → IpAddress
  | .v4 s _ => .v4 s
  | .v6 s _ => .v6 s

/-- Destination address of the pair. -/
def dst : IpPair → IpAddress
  | .v4 _ d => .v4 d
  | .v6 _ d => .v6 d

/-- Swap source and destination (IpPair::swap). -/
def swap : IpPair → IpPair
  | .v4 s d => .v4 d s
  | .v6 s d => .v6 d s

end IpPair

/-! ## ConnectionKey (src/transport.rs lines 28-64) -/

/-- Connection key: an identifier meant to resolve to the same value for
both directions of a connection. -/
structure ConnectionKey where
  addr_low : IpAddress
  addr_high : IpAddress
  port_low : Nat
  port_high : Nat
  proto : TransportProtocol
deriving DecidableEq, Repr

/-- Constructor for a connection key (ConnectionKey::new): places values
based on sorting the IPs only; the ports follow their IP. -/
def ConnectionKey.new (ips : IpPair) (port_1 port_2 : Nat)
    (proto : TransportProtocol) : ConnectionKey :=
  let ip_1 := ips.src
  let ip_2 := ips.dst
  if ip_1.le ip_2 then
    { addr_low := ip_1, addr_high := ip_2,
      port_low := port_1, port_high := port_2, proto := proto }
  else
    { addr_low := ip_2, addr_high := ip_1,
      port_low := port_2, port_high := port_1, proto := proto }

/-! ## Reset construction (src/transport.rs lines 370-457, src/censor/nfq.rs
craft_resets)

construct_reset allocates an Ethernet/IP/TCP frame of exactly the header
sizes and fills its fields with smoltcp setters; both length checks
(check_len) succeed by construction on the freshly allocated buffer, so the
function is modelled as total.  The frame is modelled as the record of the
field values the setters store. -/

/-- TcpSeqNumber is a wrapper around i32; addition of a usize wraps in
32-bit two's complement (smoltcp impl Add<usize> for TcpSeqNumber).
We model the i32 payload as an integer and make the wrap explicit. -/
def tcpSeqAdd (seq : ℤ) (len : Nat) : ℤ :=
  ((seq + (len : ℤ) + 2 ^ 31) % 2 ^ 32) - 2 ^ 31

/-- TCP flag bits of a crafted frame. -/
structure WireTcpFlags where
  fin : Bool
  syn : Bool
  rst : Bool
  psh : Bool
  ack : Bool
  urg : Bool
  ece : Bool
  cwr : Bool
  ns : Bool
deriving DecidableEq, Repr

/-- The Ethernet/IP/TCP field values written into a crafted reset frame. -/
structure ResetFrame where
  eth_src : List Nat
  eth_dst : List Nat
  ips : IpPair
  ident : Option Nat
  tcp_src_port : Nat
  tcp_dst_port : Nat
  tcp_seq : ℤ
  tcp_ack : ℤ
  tcp_flags : WireTcpFlags
deriving DecidableEq, Repr

/-- fill_reset (src/transport.rs lines 437-457): sets ports, ack and seq
numbers, clears the flags and sets ACK and RST. -/
def fill_reset (src_port dst_port : Nat) (ack seq : ℤ) :
    (Nat × Nat × ℤ × ℤ × WireTcpFlags) :=
  (src_port, dst_port, ack, seq,
   { fin := false, syn := false, rst := true, psh := false, ack := true,
     urg := false, ece := false, cwr := false, ns := false })

/-- construct_reset (src/transport.rs lines 375-435): builds one reset
frame; Ethernet src/dst are the given MACs, the IP header carries the pair
in the given orientation, and fill_reset fills the TCP header. -/
def construct_reset (src_mac dst_mac : List Nat) (ips : IpPair)
    (ipid : Option Nat) (src_port dst_port : Nat) (ack seq : ℤ) :
    ResetFrame :=
  let (sp, dp, a, s, flags) := fill_reset src_port dst_port ack seq
  { eth_src := src_mac
    eth_dst := dst_mac
    ips := ips
    ident := ipid
    tcp_src_port := sp
    tcp_dst_port := dp
    tcp_ack := a
    tcp_seq := s
    tcp_flags := flags }

/-- craft_resets (src/censor/nfq.rs lines 487-527): builds the pair
(client_reset, server_reset) from the captured flow state. -/
def craft_resets (src_mac dst_mac : List Nat) (ips : IpPair)
    (ipid : Option Nat) (src_port dst_port : Nat) (ack seq : ℤ)
    (payload_len : Nat) : ResetFrame × ResetFrame :=
  let client_reset :=
    construct_reset dst_mac src_mac ips.swap ipid
      dst_port src_port (tcpSeqAdd seq payload_len) ack
  let server_reset :=
    construct_reset src_mac dst_mac ips ipid
      src_port dst_port ack seq
  (client_reset, server_reset)

/-! ## The Delayer task (src/watermark.rs)

run_thread is an event loop that selects between the sleep timer firing and
a new packet arriving on the channel.  We model its state (the armed packet
next_packet, the BinaryHeap packet_queue, and the armed sleep deadline) and
its two select branches as a step function over an event trace.  The sleep
future starts armed essentially never (Duration::from_secs(u64::MAX)),
modelled as deadline none. -/

/-- A packet queued for delayed transmission (derives Ord: time first, then
payload, lexicographically). -/
structure QueuedPacket where
  time : Nat
  payload : List Nat
deriving DecidableEq, Repr

/-- The derived Rust Ord on QueuedPacket: compare time, then payload. -/
def QueuedPacket.cmp (a b : QueuedPacket) : Ordering :=
  match compare a.time b.time with
  | .lt => .lt
  | .gt => .gt
  | .eq => bytesCompare a.payload b.payload

/-- Rust BinaryHeap is a max-heap: pop returns a greatest element.  We model
the heap as the list of its elements; pop selects the first greatest one. -/
def heapPop : List QueuedPacket → Option (QueuedPacket × List QueuedPacket)
  | [] => none
  | x :: xs =>
    match heapPop xs with
    | none => some (x, [])
    | some (m, rest) =>
      match QueuedPacket.cmp x m with
      | .lt => some (m, x :: rest)
      | _ => some (x, m :: rest)

/-- State of the run_thread loop. -/
structure DelayerState where
  /-- The packet that should be sent when the sleep future resolves. -/
  next_packet : Option QueuedPacket
  /-- The heap of queued packets. -/
  packet_queue : List QueuedPacket
  /-- The armed sleep deadline; none is the initial far-future sleep. -/
  sleep_deadline : Option Nat
deriving DecidableEq, Repr

/-- The initial state of run_thread. -/
def DelayerState.initial : DelayerState :=
  { next_packet := none, packet_queue := [], sleep_deadline := none }

/-- An event the select loop can wake on. -/
inductive DelayerEvent where
  | recv (p : QueuedPacket)
  | sleepFire
deriving DecidableEq, Repr

/-- The sleep-timer branch of the select (src/watermark.rs lines 57-82):
if a packet is armed, transmit it and re-arm from the heap; otherwise
nothing happens.  Returns the new state and the transmitted payload. -/
def delayerSleepStep (s : DelayerState) : DelayerState × Option (List Nat) :=
  match s.next_packet with
  | some next_packet_r =>
    match heapPop s.packet_queue with
    | some (new_packet, rest) =>
      ({ next_packet := some new_packet, packet_queue := rest,
         sleep_deadline := some new_packet.time }, some next_packet_r.payload)
    | none =>
      ({ next_packet := none, packet_queue := [],
         sleep_deadline := s.sleep_deadline }, some next_packet_r.payload)
  | none => (s, none)

/-- The channel-receive branch of the select (src/watermark.rs lines 84-114):
if a packet is currently armed, either displace it (re-arming the sleep to
the displaced packet's own old deadline, as the source does) or push the
new packet onto the heap; if no packet is armed, the received packet is not
stored anywhere. -/
def delayerRecvStep (s : DelayerState) (new_packet : QueuedPacket) :
    DelayerState :=
  match s.next_packet with
  | some next_packet_r =>
    let next_time := next_packet_r.time
    if new_packet.time < next_time then
      { next_packet := some new_packet,
        packet_queue := next_packet_r :: s.packet_queue,
        sleep_deadline := some next_time }
    else
      { next_packet := some next_packet_r,
        packet_queue := new_packet :: s.packet_queue,
        sleep_deadline := s.sleep_deadline }
  | none => s

/-- One select iteration of run_thread. -/
def delayerStep (s : DelayerState) :
    DelayerEvent → DelayerState × Option (List Nat)
  | .recv p => (delayerRecvStep s p, none)
  | .sleepFire => delayerSleepStep s

/-- Run the loop over an event trace, collecting transmitted payloads in
order. -/
def delayerRun (s : DelayerState) :
    List DelayerEvent → DelayerState × List (List Nat)
  | [] => (s, [])
  | e :: es =>
    let (s1, out) := delayerStep s e
    let (s2, outs) := delayerRun s1 es
    (s2, (out.toList) ++ outs)

/-! ## Allow/block lists and the transport dispatch (src/censor/mod.rs)

Action is the censor's decision type.  PortVec (a 65536-bit array indexed
by port) and HashSet stores are modelled by their membership functions. -/

/-- The smoltcp wire error (carries no information relevant here). -/
inductive SmoltcpError where
  | wire
deriving DecidableEq, Repr

/-- An action taken by the censor (src/censor/mod.rs). -/
inductive Action where
  /-- Continue to process the packet; forwarded if nothing else applies. -/
  | none
  /-- Send a RST in both directions. -/
  | reset (src_mac dst_mac : List Nat) (ips : IpPair) (ipid : Option Nat)
      (src_port dst_port : Nat) (seq ack : ℤ) (payload_len : Nat)
      (is_ack : Bool)
  /-- Stop processing; the packet is dropped. -/
  | drop
  /-- Stop processing; the packet is forwarded. -/
  | ignore
  /-- Drop the original packet and re-transmit it at the deadline. -/
  | delay (deadline : Nat)
deriving DecidableEq, Repr

/-- A membership store (the Contains trait): PortVec and HashSet stores are
abstracted by their membership function over the key type. -/
def Store (τ : Type) : Type := τ → Bool

/-- A blocklist: recommends its action when the value is in the store. -/
structure BlockList (τ : Type) where
  store : Store τ
  in_blocklist : Action

/-- An allowlist: recommends its action when the value is NOT in the store. -/
structure AllowList (τ : Type) where
  store : Store τ
  not_in_allowlist : Action

/-- Combined allow+blocklist that performs each in order. -/
structure AllowBlockList (τ : Type) where
  allow : AllowList τ
  block : BlockList τ

/-- BlockList::recommend. -/
def BlockList.recommend (l : BlockList τ) (value : τ) : Option Action :=
  if l.store value then some l.in_blocklist else none

/-- AllowList::recommend. -/
def AllowList.recommend (l : AllowList τ) (value : τ) : Option Action :=
  if l.store value then none else some l.not_in_allowlist

/-- AllowBlockList::recommend: check the blocklist first, then the
allowlist. -/
def AllowBlockList.recommend (l : AllowBlockList τ) (value : τ) :
    Option Action :=
  match l.block.recommend value with
  | some Action.none | none => l.allow.recommend value
  | some action => some action

/-- RecommendList::recommend_either for the combined list: evaluate the
first value; on None (or a None action) evaluate the second. -/
def AllowBlockList.recommend_either (l : AllowBlockList τ) (val_1 val_2 : τ) :
    Option Action :=
  match l.recommend val_1 with
  | some Action.none | none => l.recommend val_2
  | some action => some action

/-- The smoltcp IpProtocol values distinguished by the censor. -/
inductive IpProtocol where
  | tcp
  | udp
  | icmp
  | icmpv6
  | unknown (protocol : Nat)
deriving DecidableEq, Repr

/-- The list-filter state of the Censor consulted on the transport path,
together with the per-layer default actions (src/censor/mod.rs lines
80-119). -/
structure CensorFilters where
  ip_unknown : Action
  icmp_action : Action
  tcp_port_list : AllowBlockList Nat
  tcp_ip_port_list : AllowBlockList String
  udp_port_list : AllowBlockList Nat
  udp_ip_port_list : AllowBlockList String

/-- Censor::process_transport (src/censor/mod.rs lines 648-665): consult
tcp_port_list on the packet's source and destination ports; pass or return
its recommendation.  The per-flow policy outcome
(transport_state.process) is abstracted as flow_result. -/
def Censor.process_transport (c : CensorFilters) (port_src port_dst : Nat)
    (flow_result : Except SmoltcpError Action) : Except SmoltcpError Action :=
  match c.tcp_port_list.recommend_either port_src port_dst with
  | some Action.none | none => flow_result
  | some action => .ok action

/-- Censor::process_ip (src/censor/mod.rs lines 580-611): dispatch on the
IP protocol; TCP and UDP go to process_transport, ICMP to the icmp action,
anything else to the ip unknown action. -/
def Censor.process_ip (c : CensorFilters) (next_header : IpProtocol)
    (port_src port_dst : Nat) (flow_result : Except SmoltcpError Action) :
    Except SmoltcpError Action :=
  match next_header with
  | .tcp | .udp => Censor.process_transport c port_src port_dst flow_result
  | .icmp => .ok c.icmp_action
  | _ => .ok c.ip_unknown

/-! ## Packet metadata (src/program/packet.rs)

TcpSeqNumber wraps an i32, so seq and ack are modelled as integers. -/

namespace program

/-- TCP flag bits of a decoded packet. -/
structure TcpFlags where
  fin : Bool
  syn : Bool
  rst : Bool
  psh : Bool
  ack : Bool
  urg : Bool
  ece : Bool
  cwr : Bool
  ns : Bool
deriving DecidableEq, Repr

/-- TCP metadata of a decoded packet. -/
structure TcpMetadata where
  /-- Sequence number: the i32 payload of TcpSeqNumber. -/
  seq : ℤ
  /-- Acknowledgment number: the i32 payload of TcpSeqNumber. -/
  ack : ℤ
  header_len : Nat
  urgent_at : Nat
  window_len : Nat
  flags : TcpFlags
deriving DecidableEq, Repr

/-- UDP metadata of a decoded packet. -/
structure UdpMetadata where
  length : Nat
  checksum : Nat
deriving DecidableEq, Repr

/-- Protocol-specific transport metadata. -/
inductive TransportMetadataExtra where
  | tcp (meta : TcpMetadata)
  | udp (meta : UdpMetadata)
deriving DecidableEq, Repr

/-- TransportMetadataExtra::protocol. -/
def TransportMetadataExtra.protocol : TransportMetadataExtra → TransportProtocol
  | .tcp _ => .tcp
  | .udp _ => .udp

/-- Transport metadata: the ports plus the protocol-specific part. -/
structure TransportMetadata where
  src : Nat
  dst : Nat
  extra : TransportMetadataExtra
deriving DecidableEq, Repr

/-- Version-specific IP metadata. -/
inductive IpVersionMetadata where
  | v4 (src dst : List Nat) (dscp ecn ident : Nat)
      (dont_frag more_frags : Bool) (frag_offset checksum : Nat)
  | v6 (src dst : List Nat) (traffic_class flow_label payload_len : Nat)
deriving DecidableEq, Repr

/-- IP metadata common to both versions. -/
structure IpMetadata where
  header_len : Nat
  total_len : Nat
  hop_limit : Nat
  next_header : IpProtocol
  version : IpVersionMetadata
deriving DecidableEq, Repr

/-- IpMetadata::src. -/
def IpMetadata.src (m : IpMetadata) : IpAddress :=
  match m.version with
  | .v4 s _ _ _ _ _ _ _ _ => .v4 s
  | .v6 s _ _ _ _ => .v6 s

/-- IpMetadata::dst. -/
def IpMetadata.dst (m : IpMetadata) : IpAddress :=
  match m.version with
  | .v4 _ d _ _ _ _ _ _ _ => .v4 d
  | .v6 _ d _ _ _ => .v6 d

/-- An owned packet snapshot.  payload_entropy carries the f64 Shannon
entropy of the payload as an uninterpreted rational (see the header note);
the source computes it from the payload with floating-point log2. -/
structure Packet where
  timestamp : Option ℚ
  ip : IpMetadata
  direction : ℤ
  transport : TransportMetadata
  payload : List Nat
  payload_entropy : ℚ
deriving DecidableEq, Repr

/-- The direction of a packet relative to a flow's initiator. -/
inductive Direction where
  | fromInitiator
  | toInitiator
deriving DecidableEq, Repr

/-- The (direction-sensitive) identifier of a connection. -/
structure ConnectionIdentifier where
  ips : IpAddress × IpAddress
  transport_proto : TransportProtocol
  ports : Nat × Nat
deriving DecidableEq, Repr

/-- ConnectionIdentifier::new. -/
def ConnectionIdentifier.new (src_ip dst_ip : IpAddress)
    (transport_metadata : TransportMetadata) : ConnectionIdentifier :=
  { ips := (src_ip, dst_ip),
    transport_proto := transport_metadata.extra.protocol,
    ports := (transport_metadata.src, transport_metadata.dst) }

/-- ConnectionIdentifier::direction: compare a packet's 5-tuple to the
flow's initial 5-tuple. -/
def ConnectionIdentifier.direction (self other : ConnectionIdentifier) :
    Option Direction :=
  let (src_ip, dst_ip) := self.ips
  let (src_port, dst_port) := self.ports
  let (other_src_ip, other_dst_ip) := other.ips
  let (other_src_port, other_dst_port) := other.ports
  if src_ip = other_src_ip ∧ dst_ip = other_dst_ip ∧
      src_port = other_src_port ∧ dst_port = other_dst_port then
    some .fromInitiator
  else if src_ip = other_dst_ip ∧ dst_ip = other_src_ip ∧
      src_port = other_dst_port ∧ dst_port = other_src_port then
    some .toInitiator
  else
    none

/-- Packet::connection_identifier. -/
def Packet.connection_identifier (p : Packet) : ConnectionIdentifier :=
  ConnectionIdentifier.new p.ip.src p.ip.dst p.transport

/-! ## The ProgramVM value and register model
(src/program/program.rs, src/program/env.rs) -/

/-- The three register banks. -/
inductive RegisterType where
  | float
  | int
  | bool
deriving DecidableEq, Repr

/-- A register reference: bank plus index. -/
structure Register where
  ty : RegisterType
  index : Nat
deriving DecidableEq, Repr

/-- A tagged runtime value.  f64 is modelled as an exact rational. -/
inductive Value where
  | float (f : ℚ)
  | int (i : ℤ)
  | bool (b : Bool)
deriving DecidableEq, Repr

/-- Value::as_bool. -/
def Value.as_bool : Value → Bool
  | .float f => f ≠ 0
  | .int i => i ≠ 0
  | .bool b => b

/-- The bank a value belongs to (a helper for stating register-write
semantics; not itself in the source). -/
def Value.ty : Value → RegisterType
  | .float _ => .float
  | .int _ => .int
  | .bool _ => .bool

/-- Register::as_uninitialized_value. -/
def Register.as_uninitialized_value (r : Register) : Value :=
  match r.ty with
  | .float => .float 0
  | .int => .int 0
  | .bool => .bool false

/-- Errors from Registers::set. -/
inductive RegisterWriteError where
  | invalidType
  | invalidIndex
deriving DecidableEq, Repr

/-- The three register banks of a flow environment plus the relaxation
flag (src/program/env.rs lines 55-65). -/
structure Registers where
  float : List ℚ
  int : List ℤ
  bool : List Bool
  relax_register_types : Bool
deriving DecidableEq, Repr

/-- Registers::new: all banks zero-initialised with the same width. -/
def Registers.new (num_registers : Nat) (relax_register_types : Bool) :
    Registers :=
  { float := List.replicate num_registers 0,
    int := List.replicate num_registers 0,
    bool := List.replicate num_registers false,
    relax_register_types := relax_register_types }

/-- Registers::get: read the bank named by the register's type. -/
def Registers.get (regs : Registers) (register : Register) : Option Value :=
  match register.ty with
  | .float => (regs.float.get? register.index).map Value.float
  | .int => (regs.int.get? register.index).map Value.int
  | .bool => (regs.bool.get? register.index).map Value.bool

/-- Registers::set (src/program/env.rs lines 85-110).  The match arms fire
on the type of the VALUE: a float value is written to the float bank when
the destination register is a float register or relaxation is on, and
likewise for int and bool values; any other combination is an invalid-type
error.  Out-of-range indices are invalid-index errors. -/
def Registers.set (regs : Registers) (register : Register) (value : Value) :
    Except RegisterWriteError Registers :=
  match value with
  | .float f =>
    if register.ty = RegisterType.float ∨ regs.relax_register_types then
      if register.index < regs.float.length then
        .ok { regs with float := regs.float.set register.index f }
      else
        .error .invalidIndex
    else
      .error .invalidType
  | .int i =>
    if register.ty = RegisterType.int ∨ regs.relax_register_types then
      if register.index < regs.int.length then
        .ok { regs with int := regs.int.set register.index i }
      else
        .error .invalidIndex
    else
      .error .invalidType
  | .bool b =>
    if register.ty = RegisterType.bool ∨ regs.relax_register_types then
      if register.index < regs.bool.length then
        .ok { regs with bool := regs.bool.set register.index b }
      else
        .error .invalidIndex
    else
      .error .invalidType

/-- Per-flow environment counters (src/program/env.rs EnvFields). -/
structure EnvFields where
  num_packets : Nat
deriving DecidableEq, Repr

/-! ## Field extractors (src/program/program.rs mod field) -/

/-- Environment fields. -/
inductive EnvField where
  | numPackets
deriving DecidableEq, Repr

/-- IPv4-specific fields. -/
inductive IpV4Field where
  | dscp
  | ecn
  | ident
  | dontFrag
  | moreFrags
  | fragOffset
  | checksum
deriving DecidableEq, Repr

/-- IPv6-specific fields. -/
inductive IpV6Field where
  | trafficClass
  | flowLabel
  | payloadLen
deriving DecidableEq, Repr

/-- IP fields. -/
inductive IpField where
  | headerLen
  | totalLen
  | hopLimit
  | v4 (f : IpV4Field)
  | v6 (f : IpV6Field)
deriving DecidableEq, Repr

/-- TCP flag selectors. -/
inductive TcpFlag where
  | fin
  | syn
  | rst
  | psh
  | ack
  | urg
  | ece
  | cwr
  | ns
deriving DecidableEq, Repr

/-- TCP fields. -/
inductive TcpField where
  | seq
  | ack
  | flag (f : TcpFlag)
  | length
  | headerLength
  | payloadLength
  | urgentAt
  | windowLength
deriving DecidableEq, Repr

/-- UDP fields. -/
inductive UdpField where
  | length
  | checksum
deriving DecidableEq, Repr

/-- A field extractor over the packet and environment counters. -/
inductive Field where
  | env (f : EnvField)
  | timestamp
  | ip (f : IpField)
  | tcp (f : TcpField)
  | udp (f : UdpField)
  | payloadEntropy
deriving DecidableEq, Repr

/-- Errors from IP field extraction. -/
inductive IpFieldError where
  | intConvert
  | wrongIpVersion
deriving DecidableEq, Repr

/-- Errors from TCP field extraction. -/
inductive TcpFieldError where
  | wrongProtocol
  | intConvert
deriving DecidableEq, Repr

/-- Errors from UDP field extraction. -/
inductive UdpFieldError where
  | wrongProtocol
  | intConvert
deriving DecidableEq, Repr

/-- Errors from field extraction. -/
inductive FieldError where
  | timestamp
  | ip (e : IpFieldError)
  | tcp (e : TcpFieldError)
  | udp (e : UdpFieldError)
deriving DecidableEq, Repr

/-- EnvField::eval. -/
def EnvField.eval (f : EnvField) (fields : EnvFields) : Value :=
  match f with
  | .numPackets => .int (fields.num_packets : ℤ)

/-- IpField::eval.  The usize-to-i64 conversions on header_len and
total_len cannot fail for decodable headers and are modelled as exact. -/
def IpField.eval (f : IpField) (packet : Packet) (default_on_error : Bool) :
    Except IpFieldError Value :=
  let result : Except IpFieldError Value :=
    match f with
    | .headerLen => .ok (.int (packet.ip.header_len : ℤ))
    | .totalLen => .ok (.int (packet.ip.total_len : ℤ))
    | .hopLimit => .ok (.int (packet.ip.hop_limit : ℤ))
    | .v4 v4_field =>
      match packet.ip.version with
      | .v4 _ _ dscp ecn ident dont_frag more_frags frag_offset checksum =>
        .ok (match v4_field with
          | .dscp => .int (dscp : ℤ)
          | .ecn => .int (ecn : ℤ)
          | .ident => .int (ident : ℤ)
          | .dontFrag => .bool dont_frag
          | .moreFrags => .bool more_frags
          | .fragOffset => .int (frag_offset : ℤ)
          | .checksum => .int (checksum : ℤ))
      | .v6 _ _ _ _ _ => .error .wrongIpVersion
    | .v6 v6_field =>
      match packet.ip.version with
      | .v6 _ _ traffic_class flow_label payload_len =>
        .ok (match v6_field with
          | .trafficClass => .int (traffic_class : ℤ)
          | .flowLabel => .int (flow_label : ℤ)
          | .payloadLen => .int (payload_len : ℤ))
      | .v4 _ _ _ _ _ _ _ _ _ => .error .wrongIpVersion
  if default_on_error then
    .ok (match result with
      | .ok v => v
      | .error _ => .bool false)
  else
    result

/-- TcpFlag::eval. -/
def TcpFlag.eval (f : TcpFlag) (flags : TcpFlags) : Value :=
  .bool (match f with
    | .fin => flags.fin
    | .syn => flags.syn
    | .rst => flags.rst
    | .psh => flags.psh
    | .ack => flags.ack
    | .urg => flags.urg
    | .ece => flags.ece
    | .cwr => flags.cwr
    | .ns => flags.ns)

/-- TcpField::eval.  Length and PayloadLength convert a usize to u32 and
fail on overflow, as the source's try_into does. -/
def TcpField.eval (f : TcpField) (packet : Packet) (default_on_error : Bool) :
    Except TcpFieldError Value :=
  let result : Except TcpFieldError Value :=
    match packet.transport.extra with
    | .tcp tcp_metadata =>
      match f with
      | .seq => .ok (.int tcp_metadata.seq)
      | .ack => .ok (.int tcp_metadata.ack)
      | .flag fl => .ok (TcpFlag.eval fl tcp_metadata.flags)
      | .length =>
        let total_len := tcp_metadata.header_len + packet.payload.length
        if total_len < 2 ^ 32 then .ok (.int (total_len : ℤ))
        else .error .intConvert
      | .headerLength => .ok (.int (tcp_metadata.header_len : ℤ))
      | .payloadLength =>
        let payload_len := packet.payload.length
        if payload_len < 2 ^ 32 then .ok (.int (payload_len : ℤ))
        else .error .intConvert
      | .urgentAt => .ok (.int (tcp_metadata.urgent_at : ℤ))
      | .windowLength => .ok (.int (tcp_metadata.window_len : ℤ))
    | .udp _ => .error .wrongProtocol
  if default_on_error then
    .ok (match result with
      | .ok v => v
      | .error _ => .bool false)
  else
    result

/-- UdpField::eval. -/
def UdpField.eval (f : UdpField) (packet : Packet) (default_on_error : Bool) :
    Except UdpFieldError Value :=
  let result : Except UdpFieldError Value :=
    match packet.transport.extra with
    | .udp udp_metadata =>
      match f with
      | .length => .ok (.int (udp_metadata.length : ℤ))
      | .checksum => .ok (.int (udp_metadata.checksum : ℤ))
    | .tcp _ => .error .wrongProtocol
  if default_on_error then
    .ok (match result with
      | .ok v => v
      | .error _ => .bool false)
  else
    result

/-- Field::eval. -/
def Field.eval (f : Field) (packet : Packet) (fields : EnvFields)
    (default_on_error : Bool) : Except FieldError Value :=
  match f with
  | .env field => .ok (field.eval fields)
  | .timestamp =>
    if default_on_error then
      .ok (.float (packet.timestamp.getD 0))
    else
      match packet.timestamp with
      | some t => .ok (.float t)
      | none => .error .timestamp
  | .ip field =>
    match field.eval packet default_on_error with
    | .ok v => .ok v
    | .error e => .error (.ip e)
  | .tcp field =>
    match field.eval packet default_on_error with
    | .ok v => .ok v
    | .error e => .error (.tcp e)
  | .udp field =>
    match field.eval packet default_on_error with
    | .ok v => .ok v
    | .error e => .error (.udp e)
  | .payloadEntropy => .ok (.float packet.payload_entropy)

/-! ## Operators (src/program/program.rs lines 1112-1407) -/

/-- Comparison operators of conditions. -/
inductive ComparisonOperator where
  | less
  | lessEqual
  | notEqual
  | equal
  | greater
  | greaterEqual
deriving DecidableEq, Repr

/-- Logic operators (used both in conditions and as bitwise operations). -/
inductive LogicOperator where
  | and
  | or
  | xor
  | nand
  | nor
  | xnor
deriving DecidableEq, Repr

/-- A condition operator. -/
inductive Operator where
  | comparison (op : ComparisonOperator)
  | logic (op : LogicOperator)
deriving DecidableEq, Repr

/-- ComparisonOperator::call on any linearly ordered operand type. -/
def ComparisonOperator.call [LinearOrder T] (op : ComparisonOperator)
    (lhs rhs : T) : Bool :=
  match op with
  | .less => decide (lhs < rhs)
  | .lessEqual => decide (lhs ≤ rhs)
  | .notEqual => decide (lhs ≠ rhs)
  | .equal => decide (lhs = rhs)
  | .greater => decide (lhs > rhs)
  | .greaterEqual => decide (lhs ≥ rhs)

/-- ComparisonOperator::invert: the operator with its operands exchanged. -/
def ComparisonOperator.invert : ComparisonOperator → ComparisonOperator
  | .less => .greater
  | .lessEqual => .greaterEqual
  | .notEqual => .notEqual
  | .equal => .equal
  | .greater => .less
  | .greaterEqual => .lessEqual

/-- LogicOperator::call. -/
def LogicOperator.call (op : LogicOperator) (lhs rhs : Bool) : Bool :=
  match op with
  | .and => lhs && rhs
  | .or => lhs || rhs
  | .xor => Bool.xor lhs rhs
  | .nand => !(lhs && rhs)
  | .nor => !(lhs || rhs)
  | .xnor => !(Bool.xor lhs rhs)

/-- LogicOperator::invert is the identity (operands commute). -/
def LogicOperator.invert : LogicOperator → LogicOperator
  | .and => .and
  | .or => .or
  | .xor => .xor
  | .nand => .nand
  | .nor => .nor
  | .xnor => .xnor

/-- i64_to_f64: the i64-to-f64 cast, modelled as the exact embedding of the
integer into the rationals (the source warns about, but tolerates,
precision loss above 2^53; that loss is not modelled). -/
def i64_to_f64 (i : ℤ) : ℚ := (i : ℚ)

/-- The f64 value of a bool: f64::from(u8::from(b)). -/
def boolToFloat (b : Bool) : ℚ := if b then 1 else 0

/-- The i64 value of a bool: i64::from(b). -/
def boolToInt (b : Bool) : ℤ := if b then 1 else 0

/-- Operator::call: comparisons coerce mixed operands to the wider type
(Float over Int over Bool); logic operators act on as_bool. -/
def Operator.call (self : Operator) (lhs rhs : Value) : Bool :=
  match self with
  | .comparison op =>
    match lhs, rhs with
    | .float l, .float r => op.call l r
    | .int l, .int r => op.call l r
    | .bool l, .bool r => op.call l r
    | .float l, .int r => op.call l (i64_to_f64 r)
    | .float l, .bool r => op.call l (boolToFloat r)
    | .int l, .bool r => op.call l (boolToInt r)
    | .int l, .float r => op.call (i64_to_f64 l) r
    | .bool l, .float r => op.call (boolToFloat l) r
    | .bool l, .int r => op.call (boolToInt l) r
  | .logic op => op.call lhs.as_bool rhs.as_bool

/-- Operator::invert. -/
def Operator.invert : Operator → Operator
  | .comparison op => .comparison op.invert
  | .logic op => .logic op.invert

/-- The arithmetic operators. -/
inductive MathOperatorNumeric where
  | add
  | sub
  | mul
  | div
  | mod
deriving DecidableEq, Repr

/-- A math operator: arithmetic or logic. -/
inductive MathOperator where
  | numeric (op : MathOperatorNumeric)
  | logic (op : LogicOperator)
deriving DecidableEq, Repr

/-- Truncation of a rational toward zero (how Rust casts and f64 remainder
round). -/
def ratTrunc (q : ℚ) : ℤ :=
  if 0 ≤ q then ⌊q⌋ else -⌊-q⌋

/-- MathOperatorNumeric::call at f64, on exact rationals.  Division and
remainder by zero yield zero, without trapping; the remainder is the
truncated (fmod-style) remainder of f64. -/
def MathOperatorNumeric.callF (op : MathOperatorNumeric) (lhs rhs : ℚ) : ℚ :=
  match op with
  | .add => lhs + rhs
  | .sub => lhs - rhs
  | .mul => lhs * rhs
  | .div => if rhs ≠ 0 then lhs / rhs else 0
  | .mod => if rhs ≠ 0 then lhs - rhs * (ratTrunc (lhs / rhs) : ℚ) else 0

/-- Wrap an integer into the i64 range (release-mode wrapping semantics;
no value exercised below comes near the boundary). -/
def i64wrap (x : ℤ) : ℤ :=
  ((x + 2 ^ 63) % 2 ^ 64) - 2 ^ 63

/-- MathOperatorNumeric::call at i64: truncating division and remainder,
zero divisor yields zero without trapping. -/
def MathOperatorNumeric.callI (op : MathOperatorNumeric) (lhs rhs : ℤ) : ℤ :=
  match op with
  | .add => i64wrap (lhs + rhs)
  | .sub => i64wrap (lhs - rhs)
  | .mul => i64wrap (lhs * rhs)
  | .div => if rhs ≠ 0 then Int.tdiv lhs rhs else 0
  | .mod => if rhs ≠ 0 then Int.tmod lhs rhs else 0

/-- MathOperatorNumeric::call at u8 (used for bool operands), with
release-mode wrapping. -/
def MathOperatorNumeric.callU8 (op : MathOperatorNumeric) (lhs rhs : Nat) :
    Nat :=
  match op with
  | .add => (lhs + rhs) % 256
  | .sub => (lhs + 256 - rhs) % 256
  | .mul => (lhs * rhs) % 256
  | .div => if rhs ≠ 0 then lhs / rhs else 0
  | .mod => if rhs ≠ 0 then lhs % rhs else 0

/-- The u8 value of a bool: u8::from(b). -/
def boolToU8 (b : Bool) : Nat := if b then 1 else 0

/-- MathOperator::call (src/program/program.rs lines 1327-1373): numeric
operators coerce mixed operands to the wider type; a bool pair is computed
at u8 and widened to Int; logic operators act on as_bool. -/
def MathOperator.call (self : MathOperator) (lhs rhs : Value) : Value :=
  match self with
  | .numeric op =>
    match lhs, rhs with
    | .float l, .float r => .float (op.callF l r)
    | .int l, .int r => .int (op.callI l r)
    | .bool l, .bool r => .int (op.callU8 (boolToU8 l) (boolToU8 r) : ℤ)
    | .float l, .int r => .float (op.callF l (i64_to_f64 r))
    | .float l, .bool r => .float (op.callF l (boolToFloat r))
    | .int l, .bool r => .int (op.callI l (boolToInt r))
    | .int l, .float r => .float (op.callF (i64_to_f64 l) r)
    | .bool l, .float r => .float (op.callF (boolToFloat l) r)
    | .bool l, .int r => .int (op.callI (boolToInt l) r)
  | .logic op => .bool (op.call lhs.as_bool rhs.as_bool)

/-! ## Inputs, conditions, operations, lines and programs
(src/program/program.rs lines 296-700, 1409-1570) -/

/-- An input to an operation or condition. -/
inductive Input where
  | field (f : Field)
  | register (r : Register)
  | float (f : ℚ)
  | int (i : ℤ)
  | bool (b : Bool)
deriving DecidableEq, Repr

/-- From Value for Input. -/
def inputOfValue : Value → Input
  | .float f => .float f
  | .int i => .int i
  | .bool b => .bool b

/-- Errors when evaluating an input. -/
inductive InputError where
  | fieldError (e : FieldError)
  | registerIndex (index : Nat)
deriving DecidableEq, Repr

/-- Input::const_value. -/
def Input.const_value : Input → Option Value
  | .float f => some (.float f)
  | .int i => some (.int i)
  | .bool b => some (.bool b)
  | _ => none

/-- Input::eval. -/
def Input.eval (self : Input) (packet : Packet) (registers : Registers)
    (fields : EnvFields) (field_default_on_error : Bool) :
    Except InputError Value :=
  match self with
  | .field f =>
    match f.eval packet fields field_default_on_error with
    | .ok v => .ok v
    | .error e => .error (.fieldError e)
  | .register reg =>
    match registers.get reg with
    | some v => .ok v
    | none => .error (.registerIndex reg.index)
  | .float f => .ok (.float f)
  | .int i => .ok (.int i)
  | .bool b => .ok (.bool b)

/-- Errors when evaluating a condition. -/
inductive ConditionError where
  | lhs (e : InputError)
  | rhs (e : InputError)
deriving DecidableEq, Repr

/-- A line's condition. -/
structure Condition where
  lhs : Input
  operator : Operator
  rhs : Input
deriving DecidableEq, Repr

/-- Condition::eval. -/
def Condition.eval (self : Condition) (packet : Packet)
    (registers : Registers) (fields : EnvFields)
    (field_default_on_error : Bool) : Except ConditionError Bool :=
  match self.lhs.eval packet registers fields field_default_on_error with
  | .error e => .error (.lhs e)
  | .ok lhs =>
    match self.rhs.eval packet registers fields field_default_on_error with
    | .error e => .error (.rhs e)
    | .ok rhs => .ok (self.operator.call lhs rhs)

/-- Condition::proven_value: the constant value of a condition whose two
sides are literals. -/
def Condition.proven_value (self : Condition) : Option Bool :=
  match self.lhs.const_value with
  | some lhs =>
    (self.rhs.const_value).map (fun rhs => self.operator.call lhs rhs)
  | none => none

/-- Condition::enhance_readability: swap a literal left-hand side with a
field or register right-hand side, inverting the operator. -/
def Condition.enhance_readability (self : Condition) : Condition :=
  match self.lhs with
  | .float _ | .int _ | .bool _ =>
    match self.rhs with
    | .field _ | .register _ =>
      { lhs := self.rhs, operator := self.operator.invert, rhs := self.lhs }
    | _ => self
  | _ => self

/-- The action returned by a program (src/program/program.rs lines
1540-1552). -/
inductive Action where
  | allow
  | allowAll
  | terminateAll
deriving DecidableEq, Repr

/-- An operation of a program line. -/
inductive Operation where
  | copy (from_ : Input) (to_ : Register)
  | add (lhs rhs : Input) (out : Register)
  | sub (lhs rhs : Input) (out : Register)
  | mul (lhs rhs : Input) (out : Register)
  | div (lhs rhs : Input) (out : Register)
  | mod (lhs rhs : Input) (out : Register)
  | and (lhs rhs : Input) (out : Register)
  | or (lhs rhs : Input) (out : Register)
  | xor (lhs rhs : Input) (out : Register)
  | ret (action : Action)
  | noop
  | model
deriving DecidableEq, Repr

/-- A program line: optional condition plus operation. -/
structure Line where
  condition : Option Condition
  operation : Operation
deriving DecidableEq, Repr

/-- A program: an ordered list of lines. -/
structure Program where
  lines : List Line
deriving DecidableEq, Repr

/-- Errors from executing a line. -/
inductive LineExecutionError where
  | condition (e : ConditionError)
  | input (e : InputError)
  | registerWrite (e : RegisterWriteError)
deriving DecidableEq, Repr

/-- Line::run_math_operator: evaluate both inputs, apply the operator and
write the result to the out register. -/
def Line.run_math_operator (packet : Packet) (registers : Registers)
    (fields : EnvFields) (math_operator : MathOperator) (lhs rhs : Input)
    (out : Register) (field_default_on_error : Bool) :
    Registers × Except LineExecutionError Unit :=
  match lhs.eval packet registers fields field_default_on_error with
  | .error e => (registers, .error (.input e))
  | .ok lhsVal =>
    match rhs.eval packet registers fields field_default_on_error with
    | .error e => (registers, .error (.input e))
    | .ok rhsVal =>
      let val := math_operator.call lhsVal rhsVal
      match registers.set out val with
      | .error e => (registers, .error (.registerWrite e))
      | .ok regs => (regs, .ok ())

/-- Line::run: execute the operation if the condition holds; a Return line
yields its action, everything else yields the default action.  The
registers are threaded explicitly (they are behind &mut in the source; a
partial write before an error persists). -/
def Line.run (self : Line) (packet : Packet) (registers : Registers)
    (fields : EnvFields) (field_default_on_error : Bool) :
    Registers × Except LineExecutionError Action :=
  let condValue : Except LineExecutionError Bool :=
    match self.condition with
    | some cond =>
      match cond.eval packet registers fields field_default_on_error with
      | .ok b => .ok b
      | .error e => .error (.condition e)
    | none => .ok true
  match condValue with
  | .error e => (registers, .error e)
  | .ok false => (registers, .ok .allow)
  | .ok true =>
    match self.operation with
    | .copy from_ to_ =>
      match from_.eval packet registers fields field_default_on_error with
      | .error e => (registers, .error (.input e))
      | .ok val =>
        match registers.set to_ val with
        | .error e => (registers, .error (.registerWrite e))
        | .ok regs => (regs, .ok .allow)
    | .add lhs rhs out =>
      let (regs, r) := Line.run_math_operator packet registers fields
        (.numeric .add) lhs rhs out field_default_on_error
      (regs, r.map fun _ => .allow)
    | .sub lhs rhs out =>
      let (regs, r) := Line.run_math_operator packet registers fields
        (.numeric .sub) lhs rhs out field_default_on_error
      (regs, r.map fun _ => .allow)
    | .mul lhs rhs out =>
      let (regs, r) := Line.run_math_operator packet registers fields
        (.numeric .mul) lhs rhs out field_default_on_error
      (regs, r.map fun _ => .allow)
    | .div lhs rhs out =>
      let (regs, r) := Line.run_math_operator packet registers fields
        (.numeric .div) lhs rhs out field_default_on_error
      (regs, r.map fun _ => .allow)
    | .mod lhs rhs out =>
      let (regs, r) := Line.run_math_operator packet registers fields
        (.numeric .mod) lhs rhs out field_default_on_error
      (regs, r.map fun _ => .allow)
    | .and lhs rhs out =>
      let (regs, r) := Line.run_math_operator packet registers fields
        (.logic .and) lhs rhs out field_default_on_error
      (regs, r.map fun _ => .allow)
    | .or lhs rhs out =>
      let (regs, r) := Line.run_math_operator packet registers fields
        (.logic .or) lhs rhs out field_default_on_error
      (regs, r.map fun _ => .allow)
    | .xor lhs rhs out =>
      let (regs, r) := Line.run_math_operator packet registers fields
        (.logic .xor) lhs rhs out field_default_on_error
      (regs, r.map fun _ => .allow)
    | .ret action => (registers, .ok action)
    | .noop => (registers, .ok .allow)
    | .model => (registers, .ok .allow)

/-- The loop body of Program::run over the remaining lines: execute lines
top to bottom, stopping at the first non-default action or error. -/
def runLines (packet : Packet) (fields : EnvFields)
    (field_default_on_error : Bool) :
    List Line → Registers → Registers × Except LineExecutionError Action
  | [], registers => (registers, .ok .allow)
  | line :: rest, registers =>
    match line.run packet registers fields field_default_on_error with
    | (regs, .error e) => (regs, .error e)
    | (regs, .ok action) =>
      if action ≠ Action.allow then
        (regs, .ok action)
      else
        runLines packet fields field_default_on_error rest regs

/-- Program::run (src/program/program.rs lines 265-280). -/
def Program.run (self : Program) (packet : Packet) (registers : Registers)
    (fields : EnvFields) (field_default_on_error : Bool) :
    Registers × Except LineExecutionError Action :=
  runLines packet fields field_default_on_error self.lines registers

/-! ## The optimiser (src/program/program.rs lines 65-264)

Program::optimise is a while-changed loop over a fixed sequence of passes.
Each pass is translated separately; the loop is run on fuel that exceeds a
measure which, as the passes only ever delete lines, conditions, register
reads or math operations, strictly decreases on every changed iteration
(optimisePass_measure below), so the fuel never runs out before the source
loop would exit. -/

/-- Whether an operation is a Noop. -/
def Operation.isNoop : Operation → Bool
  | .noop => true
  | _ => false

/-- Program::strip_noops on the line list: drop Noop lines, reporting
whether anything was dropped. -/
def strip_noops (lines : List Line) : List Line × Bool :=
  let kept := lines.filter (fun line => !line.operation.isNoop)
  (kept, kept.length ≠ lines.length)

/-- Operation::const_math_operator. -/
def const_math_operator (lhs rhs : Input) (operator : MathOperator) :
    Option Value :=
  match lhs.const_value with
  | some l => rhs.const_value.map (fun r => operator.call l r)
  | none => none

/-- Operation::has_constant_math_value: the folded value and destination of
a math operation whose two inputs are literals. -/
def Operation.has_constant_math_value : Operation → Option (Value × Register)
  | .add lhs rhs out =>
    (const_math_operator lhs rhs (.numeric .add)).map (fun v => (v, out))
  | .sub lhs rhs out =>
    (const_math_operator lhs rhs (.numeric .sub)).map (fun v => (v, out))
  | .mul lhs rhs out =>
    (const_math_operator lhs rhs (.numeric .mul)).map (fun v => (v, out))
  | .div lhs rhs out =>
    (const_math_operator lhs rhs (.numeric .div)).map (fun v => (v, out))
  | .mod lhs rhs out =>
    (const_math_operator lhs rhs (.numeric .mod)).map (fun v => (v, out))
  | .and lhs rhs out =>
    (const_math_operator lhs rhs (.logic .and)).map (fun v => (v, out))
  | .or lhs rhs out =>
    (const_math_operator lhs rhs (.logic .or)).map (fun v => (v, out))
  | .xor lhs rhs out =>
    (const_math_operator lhs rhs (.logic .xor)).map (fun v => (v, out))
  | _ => none

/-- The per-line body of the condition/const-fold pass (the for_each in
Program::optimise, lines 199-222): drop conditions proven true, turn lines
with conditions proven false into Noops, and replace constant math with a
Copy of the folded literal. -/
def condFoldLine (line : Line) : Line × Bool :=
  let (line1, changed1) :=
    match line.condition with
    | some condition =>
      match condition.proven_value with
      | some true => ({ line with condition := none }, true)
      | some false => ({ line with operation := .noop }, true)
      | none => (line, false)
    | none => (line, false)
  match line1.operation.has_constant_math_value with
  | some (value, to_) =>
    ({ line1 with operation := .copy (inputOfValue value) to_ }, true)
  | none => (line1, changed1)

/-- The condition/const-fold pass over all lines. -/
def condFoldLines : List Line → List Line × Bool
  | [] => ([], false)
  | line :: rest =>
    let (line1, c1) := condFoldLine line
    let (rest1, c2) := condFoldLines rest
    (line1 :: rest1, c1 || c2)

/-- Program::write_register_indices: for each line, the index its operation
writes (banks are conflated: only the index is recorded). -/
def write_register_indices (lines : List Line) : List (Option Nat) :=
  lines.map fun line =>
    match line.operation with
    | .copy _ to_ => some to_.index
    | .add _ _ out | .sub _ _ out | .mul _ _ out | .div _ _ out
    | .mod _ _ out | .and _ _ out | .or _ _ out | .xor _ _ out =>
      some out.index
    | _ => none

/-- One input of the read-analysis: keep a register read whose index was
written somewhere (recording it as read), and replace a read of a
never-written register by its bank's zero literal. -/
def fixInput (written : List Nat) (inp : Input) : Input × List Nat × Bool :=
  match inp with
  | .register reg =>
    if written.contains reg.index then
      (inp, [reg.index], false)
    else
      (inputOfValue reg.as_uninitialized_value, [], true)
  | _ => (inp, [], false)

/-- One two-input operation arm of the read analysis (the grouped match
arm of read_register_indices_also_fix covering Add through Xor). -/
def fixPair (written : List Nat) (mk : Input → Input → Register → Operation)
    (lhs rhs : Input) (out : Register) : Operation × List Nat × Bool :=
  let a := fixInput written lhs
  let b := fixInput written rhs
  (mk a.1 b.1 out, a.2.1 ++ b.2.1, a.2.2 || b.2.2)

/-- The condition part of the per-line read analysis. -/
def fixCond (written : List Nat) :
    Option Condition → Option Condition × List Nat × Bool
  | some condition =>
    let a := fixInput written condition.lhs
    let b := fixInput written condition.rhs
    (some { condition with lhs := a.1, rhs := b.1 },
     a.2.1 ++ b.2.1, a.2.2 || b.2.2)
  | none => (none, [], false)

/-- The operation part of the per-line read analysis. -/
def fixOp (written : List Nat) : Operation → Operation × List Nat × Bool
  | .copy from_ to_ =>
    let a := fixInput written from_
    (Operation.copy a.1 to_, a.2.1, a.2.2)
  | .add lhs rhs out => fixPair written Operation.add lhs rhs out
  | .sub lhs rhs out => fixPair written Operation.sub lhs rhs out
  | .mul lhs rhs out => fixPair written Operation.mul lhs rhs out
  | .div lhs rhs out => fixPair written Operation.div lhs rhs out
  | .mod lhs rhs out => fixPair written Operation.mod lhs rhs out
  | .and lhs rhs out => fixPair written Operation.and lhs rhs out
  | .or lhs rhs out => fixPair written Operation.or lhs rhs out
  | .xor lhs rhs out => fixPair written Operation.xor lhs rhs out
  | op => (op, [], false)

/-- The per-line body of Program::read_register_indices_also_fix: fix the
condition inputs and the operation inputs. -/
def fixLine (written : List Nat) (line : Line) : Line × List Nat × Bool :=
  let fc := fixCond written line.condition
  let fo := fixOp written line.operation
  ({ condition := fc.1, operation := fo.1 },
   fc.2.1 ++ fo.2.1, fc.2.2 || fo.2.2)

/-- Program::read_register_indices_also_fix over all lines: the fixed
lines, the set of register indices read (as a list; only membership is
used), and the change flag. -/
def read_register_indices_also_fix (written : List Nat) :
    List Line → List Line × List Nat × Bool
  | [] => ([], [], false)
  | line :: rest =>
    let (line1, r1, c1) := fixLine written line
    let (rest1, r2, c2) := read_register_indices_also_fix written rest
    (line1 :: rest1, r1 ++ r2, c1 || c2)

/-- The dead-store pass (Program::optimise lines 234-241): a line whose
written index is never read becomes a Noop. -/
def deadStoreLines : List Line → List (Option Nat) → List Nat →
    List Line × Bool
  | [], _, _ => ([], false)
  | line :: rest, [], _ => (line :: rest, false)
  | line :: rest, w :: ws, reads =>
    let (rest1, c) := deadStoreLines rest ws reads
    match w with
    | some written =>
      if reads.contains written then
        (line :: rest1, c)
      else
        ({ line with operation := .noop } :: rest1, true)
    | none => (line :: rest1, c)

/-- Whether a line is an unconditional Return. -/
def Line.isUnconditionalReturn (line : Line) : Bool :=
  line.condition.isNone &&
    (match line.operation with
     | .ret _ => true
     | _ => false)

/-- The truncation step (Program::optimise lines 244-249): cut everything
after the first unconditional Return.  Note that the source does not raise
the change flag here. -/
def truncateAtReturn (lines : List Line) : List Line :=
  match lines.findIdx? Line.isUnconditionalReturn with
  | some idx => lines.take (idx + 1)
  | none => lines

/-- One iteration of the while-changed loop in Program::optimise, in the
source's pass order. -/
def optimisePass (p : Program) : Program × Bool :=
  let r1 := strip_noops p.lines
  let r2 := condFoldLines r1.1
  let r3 := strip_noops r2.1
  let written_registers := write_register_indices r3.1
  let written_reg_set := written_registers.filterMap id
  let r4 := read_register_indices_also_fix written_reg_set r3.1
  let r5 := deadStoreLines r4.1 written_registers r4.2.1
  let r6 := strip_noops r5.1
  let l7 := truncateAtReturn r6.1
  (⟨l7⟩, r1.2 || r2.2 || r3.2 || r4.2.2 || r5.2 || r6.2)

/-- The weight of an input (number of register reads in it). -/
def inputWeight : Input → Nat
  | .register _ => 1
  | _ => 0

/-- The weight of an operation. -/
def opWeight : Operation → Nat
  | .copy from_ _ => 1 + inputWeight from_
  | .add lhs rhs _ | .sub lhs rhs _ | .mul lhs rhs _ | .div lhs rhs _
  | .mod lhs rhs _ | .and lhs rhs _ | .or lhs rhs _ | .xor lhs rhs _ =>
    2 + inputWeight lhs + inputWeight rhs
  | .ret _ => 1
  | .noop => 0
  | .model => 1

/-- The weight of an optional condition. -/
def condWeight : Option Condition → Nat
  | some condition => 1 + inputWeight condition.lhs + inputWeight condition.rhs
  | none => 0

/-- The weight of a line. -/
def lineWeight (line : Line) : Nat :=
  1 + condWeight line.condition + opWeight line.operation

/-- The loop measure: total weight of the program.  Every pass is
non-increasing on it and every change strictly decreases it. -/
def measureP (p : Program) : Nat :=
  (p.lines.map lineWeight).sum

/-- The while-changed loop of Program::optimise, on fuel. -/
def optimiseLoop : Nat → Program → Program
  | 0, p => p
  | n + 1, p =>
    match optimisePass p with
    | (q, true) => optimiseLoop n q
    | (q, false) => q

/-- Program::optimise: iterate the passes to quiescence of the change flag,
then apply the readability enhancement to every condition. -/
def Program.optimise (p : Program) : Program :=
  let q := optimiseLoop (measureP p + 1) p
  ⟨q.lines.map fun line =>
    { line with condition := line.condition.map Condition.enhance_readability }⟩

/-! ## Per-flow program environments (src/program/env.rs mod tcp / mod udp) -/

/-- The hidden TCP flow state. -/
structure TcpHidden where
  fin_ack_from : Bool
  fin_ack_to : Bool
  has_received_first_data_packet : Bool
deriving DecidableEq, Repr

/-- Hidden::process for TCP (src/program/env.rs lines 241-254). -/
def TcpHidden.process (self : TcpHidden) (packet : Packet)
    (direction : Direction) : TcpHidden :=
  match packet.transport.extra with
  | .tcp tcp_metadata =>
    let s1 :=
      if tcp_metadata.flags.fin && tcp_metadata.flags.ack then
        match direction with
        | .fromInitiator => { self with fin_ack_from := true }
        | .toInitiator => { self with fin_ack_to := true }
      else self
    if packet.payload ≠ [] then
      { s1 with has_received_first_data_packet := true }
    else s1
  | .udp _ => self

/-- The TCP per-flow program environment (src/program/env.rs mod tcp). -/
structure TcpProgramEnv where
  init_id : ConnectionIdentifier
  default_action : Action
  total_processed : Nat
  last_fully_processed : Nat
  hidden : TcpHidden
deriving DecidableEq, Repr

/-- tcp::ProgramEnv::new. -/
def TcpProgramEnv.new (id : ConnectionIdentifier) : TcpProgramEnv :=
  { init_id := id, default_action := .allow, total_processed := 0,
    last_fully_processed := 0,
    hidden := { fin_ack_from := false, fin_ack_to := false,
                has_received_first_data_packet := false } }

/-- tcp::ProgramEnv::process (src/program/env.rs lines 183-226): bump the
counter; if the default action has latched, answer from the latch without
touching program or registers; otherwise run the program, latching a
non-Allow result, and answer the (possibly updated) default action. -/
def TcpProgramEnv.process (self : TcpProgramEnv) (packet : Packet)
    (program : Program) (registers : Registers) (fields : EnvFields)
    (field_default_on_error : Bool) :
    TcpProgramEnv × Registers × Action :=
  let env := { self with total_processed := self.total_processed + 1 }
  match env.default_action with
  | .allowAll => (env, registers, .allow)
  | .terminateAll => (env, registers, .terminateAll)
  | .allow =>
    let (env1, registers1) :=
      match packet.transport.extra with
      | .tcp _ =>
        match env.init_id.direction packet.connection_identifier with
        | some direction =>
          let envh := { env with hidden := env.hidden.process packet direction }
          let (regs1, result) :=
            program.run packet registers fields field_default_on_error
          match result with
          | .ok .allow => (envh, regs1)
          | .ok .allowAll => ({ envh with default_action := .allowAll }, regs1)
          | .ok .terminateAll =>
            ({ envh with default_action := .terminateAll }, regs1)
          | .error _ => (envh, regs1)
        | none => (env, registers)
      | .udp _ => (env, registers)
    let env2 :=
      { env1 with last_fully_processed := env1.last_fully_processed + 1 }
    (env2, registers1, env2.default_action)

/-- The hidden UDP flow state. -/
structure UdpHidden where
  has_received_first_data_packet : Bool
deriving DecidableEq, Repr

/-- Hidden::process for UDP (src/program/env.rs lines 337-341). -/
def UdpHidden.process (self : UdpHidden) (packet : Packet) : UdpHidden :=
  if packet.payload ≠ [] then
    { self with has_received_first_data_packet := true }
  else self

/-- The UDP per-flow program environment (src/program/env.rs mod udp). -/
structure UdpProgramEnv where
  init_id : ConnectionIdentifier
  default_action : Action
  total_processed : Nat
  last_fully_processed : Nat
  hidden : UdpHidden
deriving DecidableEq, Repr

/-- udp::ProgramEnv::new. -/
def UdpProgramEnv.new (id : ConnectionIdentifier) : UdpProgramEnv :=
  { init_id := id, default_action := .allow, total_processed := 0,
    last_fully_processed := 0,
    hidden := { has_received_first_data_packet := false } }

/-- udp::ProgramEnv::process (src/program/env.rs lines 283-325). -/
def UdpProgramEnv.process (self : UdpProgramEnv) (packet : Packet)
    (program : Program) (registers : Registers) (fields : EnvFields)
    (field_default_on_error : Bool) :
    UdpProgramEnv × Registers × Action :=
  let env := { self with total_processed := self.total_processed + 1 }
  match env.default_action with
  | .allowAll => (env, registers, .allow)
  | .terminateAll => (env, registers, .terminateAll)
  | .allow =>
    let (env1, registers1) :=
      match packet.transport.extra with
      | .udp _ =>
        match env.init_id.direction packet.connection_identifier with
        | some _ =>
          let envh := { env with hidden := env.hidden.process packet }
          let (regs1, result) :=
            program.run packet registers fields field_default_on_error
          match result with
          | .ok .allow => (envh, regs1)
          | .ok .allowAll => ({ envh with default_action := .allowAll }, regs1)
          | .ok .terminateAll =>
            ({ envh with default_action := .terminateAll }, regs1)
          | .error _ => (envh, regs1)
        | none => (env, registers)
      | .tcp _ => (env, registers)
    let env2 :=
      { env1 with last_fully_processed := env1.last_fully_processed + 1 }
    (env2, registers1, env2.default_action)

end program

/-! ## Script-result interpretation (src/transport.rs lines 285-349)

TransportState::process evaluates the script's process(packet) expression;
when the result converts to a String, the lowercased string selects the
action; a non-string result (or a script error) yields Action::None.
The argument result below is that optional string. -/

/-- ASCII lowercasing of one character.  The returned strings compared
against are ASCII, so str::to_lowercase is modelled on the ASCII alphabet
(full Unicode case mapping is not modelled). -/
def charLower (c : Char) : Char :=
  if 65 ≤ c.toNat ∧ c.toNat ≤ 90 then Char.ofNat (c.toNat + 32) else c

/-- String::to_lowercase, character by character. -/
def toLowercase (s : String) : String := ⟨s.data.map charLower⟩

/-- str::starts_with, on the character lists. -/
def strStartsWith (s pre : String) : Bool := pre.data.isPrefixOf s.data

/-- The action selected from the script's process(packet) return value. -/
def process_result_action (ips : IpPair) (transport : program.TransportMetadata)
    (payload_len : Nat) (result : Option String) : Action :=
  match result with
  | none => .none
  | some s =>
    match toLowercase s with
    | "reset" =>
      match transport.extra with
      | .tcp tcp_metadata =>
        .reset (List.replicate 6 0) (List.replicate 6 0) ips none
          transport.src transport.dst tcp_metadata.seq tcp_metadata.ack
          payload_len tcp_metadata.flags.ack
      | .udp _ => .drop
    | "drop" => .drop
    | "allow" => .none
    | other => if strStartsWith other "inject" then .none else .none

/-! ## Supporting lemmas on the address ordering -/

/-- Swapping the arguments of bytesCompare swaps the ordering. -/
theorem bytesCompare_swap (xs ys : List Nat) :
    (bytesCompare xs ys).swap = bytesCompare ys xs := by
  induction xs generalizing ys with
  | nil => cases ys <;> rfl
  | cons a as_ ih =>
    cases ys with
    | nil => rfl
    | cons b bs =>
      rcases Nat.lt_trichotomy a b with h | h | h
      · have h1 : compare a b = Ordering.lt := by
          simpa [Nat.compare_eq_lt] using h
        have h2 : compare b a = Ordering.gt := by
          simpa [Nat.compare_eq_gt] using h
        simp [bytesCompare, h1, h2, Ordering.swap]
      · subst h
        have h1 : compare a a = Ordering.eq := by
          simp [Nat.compare_eq_eq]
        simp [bytesCompare, h1, ih]
      · have h1 : compare a b = Ordering.gt := by
          simpa [Nat.compare_eq_gt] using h
        have h2 : compare b a = Ordering.lt := by
          simpa [Nat.compare_eq_lt] using h
        simp [bytesCompare, h1, h2, Ordering.swap]

/-- bytesCompare only answers eq on equal lists. -/
theorem bytesCompare_eq (xs ys : List Nat)
    (h : bytesCompare xs ys = Ordering.eq) : xs = ys := by
  induction xs generalizing ys with
  | nil => cases ys with
    | nil => rfl
    | cons b bs => simp [bytesCompare] at h
  | cons a as_ ih =>
    cases ys with
    | nil => simp [bytesCompare] at h
    | cons b bs =>
      rcases h1 : compare a b with hlt | heq | hgt
      · simp [bytesCompare, h1] at h
      · have hab : a = b := by
          simpa [Nat.compare_eq_eq] using h1
        have : bytesCompare as_ bs = Ordering.eq := by
          simpa [bytesCompare, h1] using h
        rw [hab, ih bs this]
      · simp [bytesCompare, h1] at h

/-- Swapping the arguments of IpAddress.cmp swaps the ordering. -/
theorem IpAddress.cmp_swap (a b : IpAddress) :
    (IpAddress.cmp a b).swap = IpAddress.cmp b a := by
  cases a <;> cases b <;> first
    | exact bytesCompare_swap _ _
    | rfl

/-- IpAddress.cmp only answers eq on equal addresses. -/
theorem IpAddress.cmp_eq (a b : IpAddress)
    (h : IpAddress.cmp a b = Ordering.eq) : a = b := by
  cases a <;> cases b <;>
    simp [IpAddress.cmp] at h ⊢ <;> exact bytesCompare_eq _ _ h

/-- The Rust <= on IpAddress is total. -/
theorem IpAddress.le_total (a b : IpAddress)
    (h : IpAddress.le a b = false) : IpAddress.le b a = true := by
  unfold IpAddress.le at h ⊢
  rcases h1 : IpAddress.cmp a b with hlt | heq | hgt <;> rw [h1] at h <;>
    simp at h
  have h2 : IpAddress.cmp b a = Ordering.lt := by
    rw [← IpAddress.cmp_swap a b, h1]; rfl
  rw [h2]

/-- The Rust <= on IpAddress is antisymmetric. -/
theorem IpAddress.le_antisymm (a b : IpAddress)
    (hab : IpAddress.le a b = true) (hba : IpAddress.le b a = true) :
    a = b := by
  unfold IpAddress.le at hab hba
  rcases h1 : IpAddress.cmp a b with hlt | heq | hgt
  · have h2 : IpAddress.cmp b a = Ordering.gt := by
      rw [← IpAddress.cmp_swap a b, h1]; rfl
    rw [h2] at hba; simp at hba
  · exact IpAddress.cmp_eq a b h1
  · rw [h1] at hab; simp at hab

/-- Swap exchanges src and dst of an IpPair. -/
theorem IpPair.swap_src_dst (ips : IpPair) :
    ips.swap.src = ips.dst ∧ ips.swap.dst = ips.src := by
  cases ips <;> exact ⟨rfl, rfl⟩

/-! ## C1: the reset builder -/

/-- C1 (confirmed).  For every captured TCP flow state, craft_resets
produces a client-facing frame with the IP pair swapped, TCP source port
dst_port, destination port src_port, sequence number the captured ack and
acknowledgment number the captured seq plus payload_len (plain sum
whenever it stays in the i32 range, and the 32-bit wrap of it in general),
and a server-facing frame with the IP pair un-swapped, source port
src_port, destination port dst_port, sequence number seq and
acknowledgment number ack; both frames carry exactly ACK and RST among
the TCP flags. -/
theorem C1_craft_resets_fields (src_mac dst_mac : List Nat) (ips : IpPair)
    (ipid : Option Nat) (src_port dst_port : Nat) (ack seq : ℤ)
    (payload_len : Nat) :
    let pair := craft_resets src_mac dst_mac ips ipid src_port dst_port
      ack seq payload_len
    pair.1.ips = ips.swap ∧
    pair.1.tcp_src_port = dst_port ∧
    pair.1.tcp_dst_port = src_port ∧
    pair.1.tcp_seq = ack ∧
    pair.1.tcp_ack = tcpSeqAdd seq payload_len ∧
    (-2 ^ 31 ≤ seq + payload_len → seq + payload_len < 2 ^ 31 →
      pair.1.tcp_ack = seq + payload_len) ∧
    pair.2.ips = ips ∧
    pair.2.tcp_src_port = src_port ∧
    pair.2.tcp_dst_port = dst_port ∧
    pair.2.tcp_seq = seq ∧
    pair.2.tcp_ack = ack ∧
    pair.1.tcp_flags = ⟨false, false, true, false, true, false, false,
      false, false⟩ ∧
    pair.2.tcp_flags = ⟨false, false, true, false, true, false, false,
      false, false⟩ := by
  refine ⟨rfl, rfl, rfl, rfl, rfl, ?_, rfl, rfl, rfl, rfl, rfl, rfl, rfl⟩
  intro h1 h2
  show tcpSeqAdd seq payload_len = seq + payload_len
  unfold tcpSeqAdd
  omega

/-- Witness for C1 at a concrete capture. -/
theorem C1_craft_resets_fields_witness :
    (craft_resets [1, 2, 3, 4, 5, 6] [7, 8, 9, 10, 11, 12]
        (IpPair.v4 [10, 0, 0, 2] [93, 184, 216, 34]) none 45000 80
        900 100 17).1.tcp_ack = 100 + (17 : Nat) :=
  ((C1_craft_resets_fields [1, 2, 3, 4, 5, 6] [7, 8, 9, 10, 11, 12]
      (IpPair.v4 [10, 0, 0, 2] [93, 184, 216, 34]) none 45000 80
      900 100 17).2.2.2.2.2.1 (by decide) (by decide)).trans (by decide)

/-! ## C3: flow-key direction insensitivity -/

/-- C3 counterexample: when the two IP addresses of the pair are equal,
the key is not direction-insensitive — the ports do not get reordered. -/
theorem C3_connection_key_asymmetric_on_equal_ips :
    ConnectionKey.new (IpPair.v4 [127, 0, 0, 1] [127, 0, 0, 1]) 1 2
        TransportProtocol.tcp ≠
      ConnectionKey.new (IpPair.v4 [127, 0, 0, 1] [127, 0, 0, 1]).swap 2 1
        TransportProtocol.tcp := by
  decide

/-- C3 (corrected).  For every packet whose source and destination IP
addresses are distinct, the flow key is direction-insensitive:
ConnectionKey::new(ips, p1, p2, proto) equals
ConnectionKey::new(swapped ips, p2, p1, proto).  (With equal addresses and
distinct ports the keys differ, as the counterexample shows: the
constructor sorts by IP only.) -/
theorem C3_connection_key_symmetric_of_distinct_ips (ips : IpPair)
    (port_1 port_2 : Nat) (proto : TransportProtocol)
    (hne : ips.src ≠ ips.dst) :
    ConnectionKey.new ips port_1 port_2 proto =
      ConnectionKey.new ips.swap port_2 port_1 proto := by
  obtain ⟨hs, hd⟩ := IpPair.swap_src_dst ips
  unfold ConnectionKey.new
  rw [hs, hd]
  rcases h1 : ips.src.le ips.dst with hfalse | htrue
  · have h2 : ips.dst.le ips.src = true := IpAddress.le_total _ _ h1
    simp [h1, h2]
  · rcases h2 : ips.dst.le ips.src with hfalse2 | htrue2
    · simp [h1, h2]
    · exact absurd (IpAddress.le_antisymm _ _ h2 h1).symm hne

/-- Witness for C3 at a concrete pair of distinct addresses. -/
theorem C3_connection_key_symmetric_witness :
    ConnectionKey.new (IpPair.v4 [10, 0, 0, 2] [1, 1, 1, 1]) 5555 443
        TransportProtocol.tcp =
      ConnectionKey.new (IpPair.v4 [10, 0, 0, 2] [1, 1, 1, 1]).swap 443 5555
        TransportProtocol.tcp :=
  C3_connection_key_symmetric_of_distinct_ips
    (IpPair.v4 [10, 0, 0, 2] [1, 1, 1, 1]) 5555 443 TransportProtocol.tcp
    (by decide)

/-! ## C2: the Delayer -/

/-- C2 (code bug).  The run_thread receive branch stores an incoming
packet only when another packet is already armed; in the initial state
(nothing armed, which is how the task starts) every submission is
discarded, so no deadline-ordered transmission happens at all: submitting
a packet and letting the sleep timer fire any number of times transmits
nothing and leaves the state untouched. -/
theorem C2_delayer_discards_unarmed_submission :
    (∀ p : QueuedPacket,
      delayerRecvStep DelayerState.initial p = DelayerState.initial) ∧
    delayerRun DelayerState.initial
        [.recv ⟨100, [1, 2, 3]⟩, .sleepFire, .sleepFire] =
      (DelayerState.initial, []) := by
  constructor
  · intro p
    rfl
  · rfl

/-! ## C4: the port-filter stage consults the TCP port list for UDP -/

/-- C4 (confirmed).  On the per-packet path, a UDP packet's port-filter
recommendation is computed from tcp_port_list over its two ports: the
result only depends on tcp_port_list (and the abstracted per-flow
outcome), so udp_port_list, tcp_ip_port_list and udp_ip_port_list cannot
affect it, and it equals the tcp_port_list recommend_either dispatch. -/
theorem C4_udp_path_uses_tcp_port_list (c1 c2 : CensorFilters)
    (port_src port_dst : Nat) (flow_result : Except SmoltcpError Action)
    (h : c1.tcp_port_list = c2.tcp_port_list) :
    Censor.process_ip c1 .udp port_src port_dst flow_result =
      Censor.process_ip c2 .udp port_src port_dst flow_result ∧
    Censor.process_ip c1 .udp port_src port_dst flow_result =
      (match c1.tcp_port_list.recommend_either port_src port_dst with
       | some Action.none | none => flow_result
       | some action => .ok action) := by
  constructor
  · show Censor.process_transport c1 port_src port_dst flow_result =
      Censor.process_transport c2 port_src port_dst flow_result
    unfold Censor.process_transport
    rw [h]
  · rfl

/-- Witness for C4: two filter states sharing only the TCP port list (the
UDP lists disagree on every port) give the same answer on a UDP packet,
and that answer follows the TCP port list (port 80 blocked with Drop). -/
theorem C4_udp_path_uses_tcp_port_list_witness :
    (Censor.process_ip
        { ip_unknown := .none, icmp_action := .none,
          tcp_port_list :=
            { allow := { store := fun _ => true, not_in_allowlist := .none },
              block := { store := fun p => p == 80, in_blocklist := .drop } },
          tcp_ip_port_list :=
            { allow := { store := fun _ => true, not_in_allowlist := .none },
              block := { store := fun _ => false, in_blocklist := .drop } },
          udp_port_list :=
            { allow := { store := fun _ => true, not_in_allowlist := .none },
              block := { store := fun _ => false, in_blocklist := .drop } },
          udp_ip_port_list :=
            { allow := { store := fun _ => true, not_in_allowlist := .none },
              block := { store := fun _ => false, in_blocklist := .drop } } }
        .udp 45000 80 (.ok .none) =
      Censor.process_ip
        { ip_unknown := .ignore, icmp_action := .drop,
          tcp_port_list :=
            { allow := { store := fun _ => true, not_in_allowlist := .none },
              block := { store := fun p => p == 80, in_blocklist := .drop } },
          tcp_ip_port_list :=
            { allow := { store := fun _ => false, not_in_allowlist := .drop },
              block := { store := fun _ => true, in_blocklist := .ignore } },
          udp_port_list :=
            { allow := { store := fun _ => false, not_in_allowlist := .drop },
              block := { store := fun _ => true, in_blocklist := .ignore } },
          udp_ip_port_list :=
            { allow := { store := fun _ => false, not_in_allowlist := .drop },
              block := { store := fun _ => true, in_blocklist := .ignore } } }
        .udp 45000 80 (.ok .none)) ∧
    Censor.process_ip
        { ip_unknown := .none, icmp_action := .none,
          tcp_port_list :=
            { allow := { store := fun _ => true, not_in_allowlist := .none },
              block := { store := fun p => p == 80, in_blocklist := .drop } },
          tcp_ip_port_list :=
            { allow := { store := fun _ => true, not_in_allowlist := .none },
              block := { store := fun _ => false, in_blocklist := .drop } },
          udp_port_list :=
            { allow := { store := fun _ => true, not_in_allowlist := .none },
              block := { store := fun _ => false, in_blocklist := .drop } },
          udp_ip_port_list :=
            { allow := { store := fun _ => true, not_in_allowlist := .none },
              block := { store := fun _ => false, in_blocklist := .drop } } }
        .udp 45000 80 (.ok .none) = .ok .drop := by
  have h := C4_udp_path_uses_tcp_port_list
    { ip_unknown := .none, icmp_action := .none,
      tcp_port_list :=
        { allow := { store := fun _ => true, not_in_allowlist := .none },
          block := { store := fun p => p == 80, in_blocklist := .drop } },
      tcp_ip_port_list :=
        { allow := { store := fun _ => true, not_in_allowlist := .none },
          block := { store := fun _ => false, in_blocklist := .drop } },
      udp_port_list :=
        { allow := { store := fun _ => true, not_in_allowlist := .none },
          block := { store := fun _ => false, in_blocklist := .drop } },
      udp_ip_port_list :=
        { allow := { store := fun _ => true, not_in_allowlist := .none },
          block := { store := fun _ => false, in_blocklist := .drop } } }
    { ip_unknown := .ignore, icmp_action := .drop,
      tcp_port_list :=
        { allow := { store := fun _ => true, not_in_allowlist := .none },
          block := { store := fun p => p == 80, in_blocklist := .drop } },
      tcp_ip_port_list :=
        { allow := { store := fun _ => false, not_in_allowlist := .drop },
          block := { store := fun _ => true, in_blocklist := .ignore } },
      udp_port_list :=
        { allow := { store := fun _ => false, not_in_allowlist := .drop },
          block := { store := fun _ => true, in_blocklist := .ignore } },
      udp_ip_port_list :=
        { allow := { store := fun _ => false, not_in_allowlist := .drop },
          block := { store := fun _ => true, in_blocklist := .ignore } } }
    45000 80 (.ok .none) rfl
  exact ⟨h.1, h.2.trans rfl⟩

/-! ## C5: Registers::set under relaxed register types -/

/-- C5 counterexample: with relaxation on, writing a float value to the
int register at index 0 of a width-1 register file does NOT store any
coerced value in the int bank (the claimed destination): the result is not
the original registers with the int bank rewritten, because the write
lands in the float bank instead. -/
theorem C5_registers_set_not_into_destination_bank :
    ¬ ∃ k : ℤ,
      program.Registers.set (program.Registers.new 1 true) ⟨.int, 0⟩
          (.float 1) =
        .ok { program.Registers.new 1 true with int := [k] } := by
  rintro ⟨k, h⟩
  have h1 : program.Registers.set (program.Registers.new 1 true) ⟨.int, 0⟩
      (.float 1) = .ok { program.Registers.new 1 true with float := [1] } := by
    rfl
  rw [h1] at h
  have h2 : ([1] : List ℚ) = [0] :=
    congrArg program.Registers.float (Except.ok.inj h)
  simp at h2

/-- C5 (corrected).  A write whose value type differs from the destination
register's bank: with relax_register_types the value is stored UNCHANGED
in the bank matching the value's own type, at the destination index (the
destination register's bank is neither written nor used for coercion);
out-of-range indices fail with the invalid-index error.  With relaxation
disabled such a write fails with the invalid-type error, leaving the
registers unchanged (the error path performs no write). -/
theorem C5_registers_set_cross_bank (regs : program.Registers)
    (r : program.Register) (v : program.Value) (hne : v.ty ≠ r.ty) :
    (regs.relax_register_types = false →
      regs.set r v = .error .invalidType) ∧
    (regs.relax_register_types = true →
      regs.set r v =
        match v with
        | .float f =>
          if r.index < regs.float.length then
            .ok { regs with float := regs.float.set r.index f }
          else .error .invalidIndex
        | .int i =>
          if r.index < regs.int.length then
            .ok { regs with int := regs.int.set r.index i }
          else .error .invalidIndex
        | .bool b =>
          if r.index < regs.bool.length then
            .ok { regs with bool := regs.bool.set r.index b }
          else .error .invalidIndex) := by
  constructor
  · intro hrelax
    cases v <;> cases hty : r.ty <;>
      simp [program.Value.ty, hty] at hne <;>
      simp [program.Registers.set, hrelax, hty]
  · intro hrelax
    cases v <;> simp [program.Registers.set, hrelax]

/-- Witness for C5: a relaxed cross-bank write goes to the float bank, and
an unrelaxed cross-bank write fails with the invalid-type error. -/
theorem C5_registers_set_cross_bank_witness :
    program.Registers.set (program.Registers.new 1 true) ⟨.int, 0⟩
        (.float 1) =
      .ok { program.Registers.new 1 true with float := [1] } ∧
    program.Registers.set (program.Registers.new 1 false) ⟨.int, 0⟩
        (.float 1) =
      .error .invalidType := by
  constructor
  · exact ((C5_registers_set_cross_bank (program.Registers.new 1 true)
      ⟨.int, 0⟩ (.float 1) (by decide)).2 rfl).trans (by rfl)
  · exact (C5_registers_set_cross_bank (program.Registers.new 1 false)
      ⟨.int, 0⟩ (.float 1) (by decide)).1 rfl

/-! ## C6: latched default actions skip the program -/

/-- C6 (confirmed).  When a per-flow environment's default action has
latched to AllowAll or TerminateAll, processing a packet only bumps the
total_processed counter: the program is not consulted (the result is the
same for every program), the registers come back unchanged, the latch is
unchanged, and the action is determined by the latch alone (Allow for
AllowAll, TerminateAll for TerminateAll) — for both the TCP and the UDP
environments. -/
theorem C6_latched_default_skips_program (envT : program.TcpProgramEnv)
    (envU : program.UdpProgramEnv) (packet : program.Packet)
    (prog : program.Program) (registers : program.Registers)
    (fields : program.EnvFields) (field_default_on_error : Bool) :
    (envT.default_action = .allowAll →
      envT.process packet prog registers fields field_default_on_error =
        ({ envT with total_processed := envT.total_processed + 1 },
          registers, .allow)) ∧
    (envT.default_action = .terminateAll →
      envT.process packet prog registers fields field_default_on_error =
        ({ envT with total_processed := envT.total_processed + 1 },
          registers, .terminateAll)) ∧
    (envU.default_action = .allowAll →
      envU.process packet prog registers fields field_default_on_error =
        ({ envU with total_processed := envU.total_processed + 1 },
          registers, .allow)) ∧
    (envU.default_action = .terminateAll →
      envU.process packet prog registers fields field_default_on_error =
        ({ envU with total_processed := envU.total_processed + 1 },
          registers, .terminateAll)) := by
  refine ⟨fun h => ?_, fun h => ?_, fun h => ?_, fun h => ?_⟩ <;>
    simp [program.TcpProgramEnv.process, program.UdpProgramEnv.process, h]

/-- Witness for C6: latched environments at a concrete flow. -/
theorem C6_latched_default_skips_program_witness :
    program.TcpProgramEnv.process
        { init_id := { ips := (.v4 [10, 0, 0, 2], .v4 [1, 1, 1, 1]),
                       transport_proto := .tcp, ports := (5555, 443) },
          default_action := .allowAll, total_processed := 3,
          last_fully_processed := 2,
          hidden := ⟨false, false, true⟩ }
        { timestamp := none,
          ip := { header_len := 20, total_len := 40, hop_limit := 64,
                  next_header := .tcp,
                  version := .v4 [10, 0, 0, 2] [1, 1, 1, 1] 0 0 0
                    false false 0 0 },
          direction := 0,
          transport := { src := 5555, dst := 443,
                         extra := .tcp ({ seq := 5, ack := 7,
                                          header_len := 20, urgent_at := 0,
                                          window_len := 100,
                                          flags := ⟨false, false, false,
                                            false, true, false, false,
                                            false, false⟩ }) },
          payload := [], payload_entropy := 0 }
        ⟨[⟨none, .ret .terminateAll⟩]⟩ (program.Registers.new 4 false)
        ⟨7⟩ true =
      ({ init_id := { ips := (.v4 [10, 0, 0, 2], .v4 [1, 1, 1, 1]),
                      transport_proto := .tcp, ports := (5555, 443) },
         default_action := .allowAll, total_processed := 4,
         last_fully_processed := 2,
         hidden := ⟨false, false, true⟩ },
        program.Registers.new 4 false, .allow) :=
  (C6_latched_default_skips_program
    { init_id := { ips := (.v4 [10, 0, 0, 2], .v4 [1, 1, 1, 1]),
                   transport_proto := .tcp, ports := (5555, 443) },
      default_action := .allowAll, total_processed := 3,
      last_fully_processed := 2,
      hidden := ⟨false, false, true⟩ }
    (program.UdpProgramEnv.new
      { ips := (.v4 [0], .v4 [0]), transport_proto := .udp,
        ports := (0, 0) })
    { timestamp := none,
      ip := { header_len := 20, total_len := 40, hop_limit := 64,
              next_header := .tcp,
              version := .v4 [10, 0, 0, 2] [1, 1, 1, 1] 0 0 0
                false false 0 0 },
      direction := 0,
      transport := { src := 5555, dst := 443,
                     extra := .tcp ({ seq := 5, ack := 7,
                                      header_len := 20, urgent_at := 0,
                                      window_len := 100,
                                      flags := ⟨false, false, false,
                                        false, true, false, false,
                                        false, false⟩ }) },
      payload := [], payload_entropy := 0 }
    ⟨[⟨none, .ret .terminateAll⟩]⟩ (program.Registers.new 4 false)
    ⟨7⟩ true).1 rfl

/-! ## C7: the optimiser is not behaviour-preserving -/

/-- C7 (code bug).  The truncation pass cuts the program after the FIRST
unconditional Return, but Program::run only stops at a non-default Return:
an unconditional Return Allow does not end execution.  On the program
[Return Allow; Return TerminateAll] the original run reaches TerminateAll
for every packet and register state, while the optimised program (truncated
to [Return Allow]) always answers Allow: the optimiser changes the action. -/
theorem C7_optimise_changes_behavior (packet : program.Packet)
    (registers : program.Registers) (fields : program.EnvFields)
    (field_default_on_error : Bool) :
    (program.Program.run ⟨[⟨none, .ret .allow⟩, ⟨none, .ret .terminateAll⟩]⟩
        packet registers fields field_default_on_error).2 =
      .ok .terminateAll ∧
    program.Program.optimise
        ⟨[⟨none, .ret .allow⟩, ⟨none, .ret .terminateAll⟩]⟩ =
      ⟨[⟨none, .ret .allow⟩]⟩ ∧
    (program.Program.run
        (program.Program.optimise
          ⟨[⟨none, .ret .allow⟩, ⟨none, .ret .terminateAll⟩]⟩)
        packet registers fields field_default_on_error).2 =
      .ok .allow :=
  ⟨rfl, rfl, rfl⟩

/-! ## C8: the optimiser is not idempotent -/

/-- C8 (code bug).  The truncation step never raises the change flag, so
the while-changed loop can exit on a program it has just truncated without
re-running the global register analyses on the truncated text.  On
[if reg_int_0 == 0: Return AllowAll; Return AllowAll; Copy 1 -> reg_int_0]
the first optimise keeps the conditional line (reg 0 counts as written by
the line the truncation then cuts), while optimising a second time
replaces the now-unwritten register read by 0, proves the condition true
and truncates again: optimise(optimise(P)) differs from optimise(P). -/
theorem C8_optimise_not_idempotent :
    program.Program.optimise
        ⟨[⟨some ⟨.register ⟨.int, 0⟩, .comparison .equal, .int 0⟩,
            .ret .allowAll⟩,
          ⟨none, .ret .allowAll⟩,
          ⟨none, .copy (.int 1) ⟨.int, 0⟩⟩]⟩ =
      ⟨[⟨some ⟨.register ⟨.int, 0⟩, .comparison .equal, .int 0⟩,
          .ret .allowAll⟩,
        ⟨none, .ret .allowAll⟩]⟩ ∧
    program.Program.optimise (program.Program.optimise
        ⟨[⟨some ⟨.register ⟨.int, 0⟩, .comparison .equal, .int 0⟩,
            .ret .allowAll⟩,
          ⟨none, .ret .allowAll⟩,
          ⟨none, .copy (.int 1) ⟨.int, 0⟩⟩]⟩) =
      ⟨[⟨none, .ret .allowAll⟩]⟩ ∧
    program.Program.optimise (program.Program.optimise
        ⟨[⟨some ⟨.register ⟨.int, 0⟩, .comparison .equal, .int 0⟩,
            .ret .allowAll⟩,
          ⟨none, .ret .allowAll⟩,
          ⟨none, .copy (.int 1) ⟨.int, 0⟩⟩]⟩) ≠
      program.Program.optimise
        ⟨[⟨some ⟨.register ⟨.int, 0⟩, .comparison .equal, .int 0⟩,
            .ret .allowAll⟩,
          ⟨none, .ret .allowAll⟩,
          ⟨none, .copy (.int 1) ⟨.int, 0⟩⟩]⟩ :=
  ⟨rfl, rfl, by decide⟩

/-! ## C9: division and remainder by zero -/

/-- C9 (confirmed).  For every left operand and every zero right operand
(integer 0, float 0.0 or bool false), a Div or Mod operation produces the
zero value of the coerced result type without trapping; for integer
operands the result is the integer 0; and running a Div or Mod line with a
zero literal divisor writes 0 to the (in-bounds, int-typed) output
register and reports no error. -/
theorem C9_div_mod_by_zero_yields_zero :
    (∀ lhs rhs : program.Value,
      rhs = .int 0 ∨ rhs = .float 0 ∨ rhs = .bool false →
      (program.MathOperator.call (.numeric .div) lhs rhs = .int 0 ∨
        program.MathOperator.call (.numeric .div) lhs rhs = .float 0) ∧
      (program.MathOperator.call (.numeric .mod) lhs rhs = .int 0 ∨
        program.MathOperator.call (.numeric .mod) lhs rhs = .float 0)) ∧
    (∀ i : ℤ,
      program.MathOperator.call (.numeric .div) (.int i) (.int 0) = .int 0 ∧
      program.MathOperator.call (.numeric .mod) (.int i) (.int 0) = .int 0) ∧
    (∀ (packet : program.Packet) (registers : program.Registers)
        (fields : program.EnvFields) (field_default_on_error : Bool)
        (i : ℤ) (out : program.Register),
      out.ty = .int → out.index < registers.int.length →
      program.Line.run ⟨none, .div (.int i) (.int 0) out⟩ packet registers
          fields field_default_on_error =
        ({ registers with int := registers.int.set out.index 0 },
          .ok .allow) ∧
      program.Line.run ⟨none, .mod (.int i) (.int 0) out⟩ packet registers
          fields field_default_on_error =
        ({ registers with int := registers.int.set out.index 0 },
          .ok .allow)) := by
  refine ⟨?_, ?_, ?_⟩
  · intro lhs rhs h
    rcases h with h | h | h <;> subst h <;> cases lhs <;>
      simp [program.MathOperator.call, program.MathOperatorNumeric.callF,
        program.MathOperatorNumeric.callI, program.MathOperatorNumeric.callU8,
        program.i64_to_f64, program.boolToFloat, program.boolToInt,
        program.boolToU8]
  · intro i
    constructor <;> rfl
  · intro packet registers fields field_default_on_error i out hty hidx
    constructor <;>
      simp [program.Line.run, program.Line.run_math_operator,
        program.Input.eval, program.MathOperator.call,
        program.MathOperatorNumeric.callI, program.Registers.set,
        Except.map, hty, hidx]

/-- Witness for C9 at 5 / 0 and 5 mod 0 with a width-1 register file. -/
theorem C9_div_mod_by_zero_yields_zero_witness :
    program.MathOperator.call (.numeric .div) (.int 5) (.int 0) = .int 0 ∧
    program.Line.run ⟨none, .mod (.int 5) (.int 0) ⟨.int, 0⟩⟩
        { timestamp := none,
          ip := { header_len := 20, total_len := 40, hop_limit := 64,
                  next_header := .udp,
                  version := .v4 [10, 0, 0, 2] [1, 1, 1, 1] 0 0 0
                    false false 0 0 },
          direction := 0,
          transport := { src := 5555, dst := 53, extra := .udp ⟨30, 0⟩ },
          payload := [], payload_entropy := 0 }
        (program.Registers.new 1 false) ⟨1⟩ true =
      ({ program.Registers.new 1 false with int := [0] }, .ok .allow) := by
  constructor
  · exact (C9_div_mod_by_zero_yields_zero.2.1 5).1
  · exact ((C9_div_mod_by_zero_yields_zero.2.2
      { timestamp := none,
        ip := { header_len := 20, total_len := 40, hop_limit := 64,
                next_header := .udp,
                version := .v4 [10, 0, 0, 2] [1, 1, 1, 1] 0 0 0
                  false false 0 0 },
        direction := 0,
        transport := { src := 5555, dst := 53, extra := .udp ⟨30, 0⟩ },
        payload := [], payload_entropy := 0 }
      (program.Registers.new 1 false) ⟨1⟩ true 5 ⟨.int, 0⟩ rfl
      (by decide)).2).trans (by rfl)

/-! ## C10: interpretation of the script's process(packet) result -/

/-- C10 (confirmed).  The action is a function of the lowercased string
returned by process(packet): a non-string result gives None; "drop" gives
Drop; "reset" gives a Reset carrying the flow's ports, seq/ack and payload
length when the packet is TCP and degrades to Drop otherwise; "allow",
anything beginning with "inject", and every unrecognized string give
None; and two strings with equal lowercasings always give the same
action. -/
theorem C10_process_result_action_cases (ips : IpPair)
    (transport : program.TransportMetadata) (payload_len : Nat) :
    process_result_action ips transport payload_len none = .none ∧
    (∀ s : String, toLowercase s = "drop" →
      process_result_action ips transport payload_len (some s) = .drop) ∧
    (∀ (s : String) (tcp_metadata : program.TcpMetadata),
      toLowercase s = "reset" →
      transport.extra = .tcp tcp_metadata →
      process_result_action ips transport payload_len (some s) =
        .reset (List.replicate 6 0) (List.replicate 6 0) ips none
          transport.src transport.dst tcp_metadata.seq tcp_metadata.ack
          payload_len tcp_metadata.flags.ack) ∧
    (∀ (s : String) (udp_metadata : program.UdpMetadata),
      toLowercase s = "reset" →
      transport.extra = .udp udp_metadata →
      process_result_action ips transport payload_len (some s) = .drop) ∧
    (∀ s : String,
      toLowercase s = "allow" ∨ strStartsWith (toLowercase s) "inject" = true ∨
        (toLowercase s ≠ "drop" ∧ toLowercase s ≠ "reset" ∧
          toLowercase s ≠ "allow") →
      process_result_action ips transport payload_len (some s) = .none) ∧
    (∀ s1 s2 : String, toLowercase s1 = toLowercase s2 →
      process_result_action ips transport payload_len (some s1) =
        process_result_action ips transport payload_len (some s2)) := by
  refine ⟨rfl, ?_, ?_, ?_, ?_, ?_⟩
  · intro s h
    simp only [process_result_action]
    rw [h]
    rfl
  · intro s tcp_metadata h hextra
    simp only [process_result_action]
    rw [h, hextra]
    rfl
  · intro s udp_metadata h hextra
    simp only [process_result_action]
    rw [h, hextra]
    rfl
  · intro s h
    simp only [process_result_action]
    rcases h with h | h | ⟨h1, h2, h3⟩
    · rw [h]
      rfl
    · have h1 : toLowercase s ≠ "drop" := by
        intro hc; rw [hc] at h; exact absurd h (by decide)
      have h2 : toLowercase s ≠ "reset" := by
        intro hc; rw [hc] at h; exact absurd h (by decide)
      have h3 : toLowercase s ≠ "allow" := by
        intro hc; rw [hc] at h; exact absurd h (by decide)
      split
      · exact absurd (by assumption) h2
      · exact absurd (by assumption) h1
      · exact absurd (by assumption) h3
      · split <;> rfl
    · split
      · exact absurd (by assumption) h2
      · exact absurd (by assumption) h1
      · exact absurd (by assumption) h3
      · split <;> rfl
  · intro s1 s2 h
    simp only [process_result_action]
    rw [h]

/-- Witness for C10: the case-insensitive strings of the table at a TCP
flow. -/
theorem C10_process_result_action_cases_witness :
    process_result_action (IpPair.v4 [10, 0, 0, 2] [1, 1, 1, 1])
        { src := 5555, dst := 443,
          extra := .tcp ({ seq := 5, ack := 7, header_len := 20,
                           urgent_at := 0, window_len := 100,
                           flags := ⟨false, false, false, false, true,
                             false, false, false, false⟩ }) }
        17 (some "DROP") = .drop ∧
    process_result_action (IpPair.v4 [10, 0, 0, 2] [1, 1, 1, 1])
        { src := 5555, dst := 443,
          extra := .tcp ({ seq := 5, ack := 7, header_len := 20,
                           urgent_at := 0, window_len := 100,
                           flags := ⟨false, false, false, false, true,
                             false, false, false, false⟩ }) }
        17 (some "Reset") =
      .reset (List.replicate 6 0) (List.replicate 6 0)
        (IpPair.v4 [10, 0, 0, 2] [1, 1, 1, 1]) none 5555 443 5 7 17 true ∧
    process_result_action (IpPair.v4 [10, 0, 0, 2] [1, 1, 1, 1])
        { src := 5555, dst := 443,
          extra := .tcp ({ seq := 5, ack := 7, header_len := 20,
                           urgent_at := 0, window_len := 100,
                           flags := ⟨false, false, false, false, true,
                             false, false, false, false⟩ }) }
        17 (some "inject foo") = .none := by
  refine ⟨?_, ?_, ?_⟩
  · exact (C10_process_result_action_cases
      (IpPair.v4 [10, 0, 0, 2] [1, 1, 1, 1])
      { src := 5555, dst := 443,
        extra := .tcp ({ seq := 5, ack := 7, header_len := 20,
                         urgent_at := 0, window_len := 100,
                         flags := ⟨false, false, false, false, true,
                           false, false, false, false⟩ }) }
      17).2.1 "DROP" (by decide)
  · exact (C10_process_result_action_cases
      (IpPair.v4 [10, 0, 0, 2] [1, 1, 1, 1])
      { src := 5555, dst := 443,
        extra := .tcp ({ seq := 5, ack := 7, header_len := 20,
                         urgent_at := 0, window_len := 100,
                         flags := ⟨false, false, false, false, true,
                           false, false, false, false⟩ }) }
      17).2.2.1 "Reset" _ (by decide) rfl
  · exact (C10_process_result_action_cases
      (IpPair.v4 [10, 0, 0, 2] [1, 1, 1, 1])
      { src := 5555, dst := 443,
        extra := .tcp ({ seq := 5, ack := 7, header_len := 20,
                         urgent_at := 0, window_len := 100,
                         flags := ⟨false, false, false, false, true,
                           false, false, false, false⟩ }) }
      17).2.2.2.2.1 "inject foo" (Or.inr (Or.inl (by decide)))

/-! ## Adequacy of the fuel bound for the optimiser loop

The source loop is `while changed`.  The translation runs it on fuel
measureP p + 1; the lemmas below show every changed iteration strictly
decreases measureP (and no iteration increases it), so the loop reaches
its exit condition before the fuel runs out and the result is independent
of the fuel beyond the bound: the fuel is a faithful rendering of the
while loop. -/

namespace program

/-- The measure of a line list. -/
def linesMeasure (ls : List Line) : Nat := (ls.map lineWeight).sum

/-- Every line weighs at least one. -/
theorem lineWeight_pos (l : Line) : 1 ≤ lineWeight l := by
  unfold lineWeight
  omega

/-- Filtering can only lower the measure. -/
theorem linesMeasure_filter_le (p : Line → Bool) (ls : List Line) :
    linesMeasure (ls.filter p) ≤ linesMeasure ls := by
  induction ls with
  | nil => simp [linesMeasure]
  | cons l rest ih =>
    by_cases h : p l
    · simp only [linesMeasure, List.filter, h, if_true, List.map_cons,
        List.sum_cons] at *
      omega
    · simp only [linesMeasure, List.filter, h, Bool.false_eq_true, if_false,
        List.map_cons, List.sum_cons] at *
      omega

/-- A prefix can only lower the measure. -/
theorem linesMeasure_take_le (n : Nat) (ls : List Line) :
    linesMeasure (ls.take n) ≤ linesMeasure ls := by
  induction ls generalizing n with
  | nil => simp [linesMeasure]
  | cons l rest ih =>
    cases n with
    | zero => simp [linesMeasure]
    | succ m =>
      have := ih m
      simp only [linesMeasure, List.take, List.map_cons, List.sum_cons] at *
      omega

/-- strip_noops never raises the measure. -/
theorem strip_noops_le (ls : List Line) :
    linesMeasure (strip_noops ls).1 ≤ linesMeasure ls :=
  linesMeasure_filter_le _ ls

/-- A raised strip_noops flag means the measure strictly dropped. -/
theorem strip_noops_lt (ls : List Line) (h : (strip_noops ls).2 = true) :
    linesMeasure (strip_noops ls).1 < linesMeasure ls := by
  induction ls with
  | nil => simp [strip_noops] at h
  | cons l rest ih =>
    by_cases hl : l.operation.isNoop
    · have hle := linesMeasure_filter_le
        (fun line => !line.operation.isNoop) rest
      have hw := lineWeight_pos l
      simp only [strip_noops, List.filter, hl, Bool.not_true,
        Bool.false_eq_true, if_false, linesMeasure, List.map_cons,
        List.sum_cons] at *
      omega
    · have hrec : (strip_noops rest).2 = true := by
        simp only [strip_noops, List.filter, hl, Bool.not_false, if_true,
          List.length_cons, decide_eq_true_eq] at h ⊢
        simpa using h
      have := ih hrec
      simp only [strip_noops, List.filter, hl, Bool.not_false, if_true,
        linesMeasure, List.map_cons, List.sum_cons] at *
      omega

/-- A Noop line in the list forces the strip_noops flag. -/
theorem strip_noops_flag_of_mem (ls : List Line) (l : Line) (hmem : l ∈ ls)
    (hnoop : l.operation.isNoop = true) : (strip_noops ls).2 = true := by
  have hlt : (ls.filter (fun line => !line.operation.isNoop)).length <
      ls.length := by
    apply List.length_filter_lt_length_iff_exists.mpr
    exact ⟨l, hmem, by simp [hnoop]⟩
  simp only [strip_noops, decide_eq_true_eq]
  omega

/-- Constant inputs carry no register read. -/
theorem inputWeight_const (i : Input) (v : Value)
    (h : i.const_value = some v) : inputWeight i = 0 := by
  cases i <;> simp [Input.const_value] at h <;> rfl

/-- Values injected as inputs carry no register read. -/
theorem inputWeight_inputOfValue (v : Value) :
    inputWeight (inputOfValue v) = 0 := by
  cases v <;> rfl

/-- A provable condition has two constant (weightless) sides. -/
theorem proven_value_weights (c : Condition) (b : Bool)
    (h : c.proven_value = some b) :
    inputWeight c.lhs = 0 ∧ inputWeight c.rhs = 0 := by
  unfold Condition.proven_value at h
  rcases hl : c.lhs.const_value with _ | vl
  · rw [hl] at h; exact absurd h (by simp)
  · rw [hl] at h
    rcases hr : c.rhs.const_value with _ | vr
    · rw [hr] at h; exact absurd h (by simp)
    · exact ⟨inputWeight_const _ _ hl, inputWeight_const _ _ hr⟩

/-- A foldable math operation has two constant (weightless) inputs. -/
theorem const_math_operator_weights (lhs rhs : Input) (op : MathOperator)
    (v : Value) (h : const_math_operator lhs rhs op = some v) :
    inputWeight lhs = 0 ∧ inputWeight rhs = 0 := by
  unfold const_math_operator at h
  rcases hl : lhs.const_value with _ | vl
  · rw [hl] at h; exact absurd h (by simp)
  · rw [hl] at h
    rcases hr : rhs.const_value with _ | vr
    · rw [hr] at h; exact absurd h (by simp)
    · exact ⟨inputWeight_const _ _ hl, inputWeight_const _ _ hr⟩

/-- A foldable operation weighs exactly two. -/
theorem opWeight_of_const_math (op : Operation) (v : Value) (out : Register)
    (h : op.has_constant_math_value = some (v, out)) : opWeight op = 2 := by
  cases op <;> simp only [Operation.has_constant_math_value] at h <;>
    first
      | (rw [Option.map_eq_some'] at h
         obtain ⟨v1, hv1, _⟩ := h
         obtain ⟨h1, h2⟩ := const_math_operator_weights _ _ _ _ hv1
         simp [opWeight, h1, h2])
      | exact absurd h (by simp)

/-- The weight of a line after replacing its operation by a constant copy. -/
theorem opWeight_copy_const (v : Value) (out : Register) :
    opWeight (Operation.copy (inputOfValue v) out) = 1 := by
  simp [opWeight, inputWeight_inputOfValue]

/-- The condition/const-fold body never raises a line's weight. -/
theorem condFoldLine_le (l : Line) :
    lineWeight (condFoldLine l).1 ≤ lineWeight l := by
  rcases hcond : l.condition with _ | c
  · simp only [condFoldLine, hcond]
    rcases hfold : l.operation.has_constant_math_value with _ | ⟨v, out⟩
    · simp
    · have h2 := opWeight_of_const_math _ _ _ hfold
      simp only [lineWeight, condWeight, hcond, opWeight_copy_const, h2]
      omega
  · rcases hpv : c.proven_value with _ | b
    · simp only [condFoldLine, hcond, hpv]
      rcases hfold : l.operation.has_constant_math_value with _ | ⟨v, out⟩
      · simp
      · have h2 := opWeight_of_const_math _ _ _ hfold
        simp only [lineWeight, condWeight, hcond, opWeight_copy_const, h2]
        omega
    · cases b
      · simp only [condFoldLine, hcond, hpv]
        rcases hfold : (Operation.noop).has_constant_math_value
            with _ | ⟨v, out⟩
        · simp only [lineWeight, condWeight, hcond, opWeight]
          omega
        · simp [Operation.has_constant_math_value] at hfold
      · obtain ⟨hw1, hw2⟩ := proven_value_weights _ _ hpv
        simp only [condFoldLine, hcond, hpv]
        rcases hfold : l.operation.has_constant_math_value with _ | ⟨v, out⟩
        · simp only [lineWeight, condWeight, hcond, hw1, hw2]
          omega
        · have h2 := opWeight_of_const_math _ _ _ hfold
          simp only [lineWeight, condWeight, hcond, hw1, hw2, opWeight_copy_const, h2]
          omega

/-- A raised condition/const-fold flag means the line's weight strictly
dropped or the line became a Noop. -/
theorem condFoldLine_changed (l : Line) (h : (condFoldLine l).2 = true) :
    lineWeight (condFoldLine l).1 < lineWeight l ∨
      (condFoldLine l).1.operation.isNoop = true := by
  rcases hcond : l.condition with _ | c
  · simp only [condFoldLine, hcond] at h ⊢
    rcases hfold : l.operation.has_constant_math_value with _ | ⟨v, out⟩
    · rw [hfold] at h; simp at h
    · have h2 := opWeight_of_const_math _ _ _ hfold
      left
      simp only [lineWeight, condWeight, hcond, opWeight_copy_const, h2]
      omega
  · rcases hpv : c.proven_value with _ | b
    · simp only [condFoldLine, hcond, hpv] at h ⊢
      rcases hfold : l.operation.has_constant_math_value with _ | ⟨v, out⟩
      · rw [hfold] at h; simp at h
      · have h2 := opWeight_of_const_math _ _ _ hfold
        left
        simp only [lineWeight, condWeight, hcond, opWeight_copy_const, h2]
        omega
    · cases b
      · simp only [condFoldLine, hcond, hpv]
        rcases hfold : (Operation.noop).has_constant_math_value
            with _ | ⟨v, out⟩
        · right
          simp [Operation.isNoop]
        · simp [Operation.has_constant_math_value] at hfold
      · obtain ⟨hw1, hw2⟩ := proven_value_weights _ _ hpv
        simp only [condFoldLine, hcond, hpv]
        rcases hfold : l.operation.has_constant_math_value with _ | ⟨v, out⟩
        · left
          simp only [lineWeight, condWeight, hcond, hw1, hw2]
          omega
        · have h2 := opWeight_of_const_math _ _ _ hfold
          left
          simp only [lineWeight, condWeight, hcond, hw1, hw2, opWeight_copy_const, h2]
          omega

/-- The read analysis never raises an input's weight, and strictly lowers
it when it reports a change. -/
theorem fixInput_bound (written : List Nat) (i : Input) :
    inputWeight (fixInput written i).1 ≤ inputWeight i ∧
      ((fixInput written i).2.2 = true →
        inputWeight (fixInput written i).1 < inputWeight i) := by
  cases i
  case register reg =>
    by_cases hmem : reg.index ∈ written
    · simp [fixInput, hmem, inputWeight]
    · have hc : ¬(written.contains reg.index = true) := by simpa using hmem
      simp only [fixInput, if_neg hc]
      rw [inputWeight_inputOfValue]
      simp [inputWeight]
  all_goals simp [fixInput, inputWeight]

/-- The read analysis on a two-input operation never raises its weight,
and strictly lowers it when it reports a change. -/
theorem fixPair_bound (written : List Nat)
    (mk : Input → Input → Register → Operation) (lhs rhs : Input)
    (out : Register)
    (hmk : ∀ a b : Input, opWeight (mk a b out) = 2 + inputWeight a +
      inputWeight b) :
    opWeight (fixPair written mk lhs rhs out).1 ≤
        2 + inputWeight lhs + inputWeight rhs ∧
      ((fixPair written mk lhs rhs out).2.2 = true →
        opWeight (fixPair written mk lhs rhs out).1 <
          2 + inputWeight lhs + inputWeight rhs) := by
  obtain ⟨ha, ha2⟩ := fixInput_bound written lhs
  obtain ⟨hb, hb2⟩ := fixInput_bound written rhs
  simp only [fixPair, hmk, Bool.or_eq_true]
  constructor
  · omega
  · intro hch
    rcases hch with hch | hch
    · have := ha2 hch
      omega
    · have := hb2 hch
      omega

/-- The read analysis on a condition never raises its weight, and strictly
lowers it when it reports a change. -/
theorem fixCond_bound (written : List Nat) (c : Option Condition) :
    condWeight (fixCond written c).1 ≤ condWeight c ∧
      ((fixCond written c).2.2 = true →
        condWeight (fixCond written c).1 < condWeight c) := by
  rcases c with _ | c
  · simp [fixCond, condWeight]
  · obtain ⟨ha, ha2⟩ := fixInput_bound written c.lhs
    obtain ⟨hb, hb2⟩ := fixInput_bound written c.rhs
    simp only [fixCond, condWeight, Bool.or_eq_true]
    constructor
    · omega
    · intro hch
      rcases hch with hch | hch
      · have := ha2 hch
        omega
      · have := hb2 hch
        omega

/-- The read analysis on an operation never raises its weight, and
strictly lowers it when it reports a change. -/
theorem fixOp_bound (written : List Nat) (op : Operation) :
    opWeight (fixOp written op).1 ≤ opWeight op ∧
      ((fixOp written op).2.2 = true →
        opWeight (fixOp written op).1 < opWeight op) := by
  cases op
  case copy from_ to_ =>
    obtain ⟨ha, ha2⟩ := fixInput_bound written from_
    simp only [fixOp, opWeight]
    constructor
    · omega
    · intro hch
      have := ha2 hch
      omega
  case ret a => simp [fixOp]
  case noop => simp [fixOp]
  case model => simp [fixOp]
  all_goals
    exact fixPair_bound written _ _ _ _ (fun a b => rfl)

/-- The read analysis never raises a line's weight, and strictly lowers it
when it reports a change. -/
theorem fixLine_bound (written : List Nat) (l : Line) :
    lineWeight (fixLine written l).1 ≤ lineWeight l ∧
      ((fixLine written l).2.2 = true →
        lineWeight (fixLine written l).1 < lineWeight l) := by
  obtain ⟨hc, hc2⟩ := fixCond_bound written l.condition
  obtain ⟨ho, ho2⟩ := fixOp_bound written l.operation
  simp only [fixLine, lineWeight, Bool.or_eq_true]
  constructor
  · omega
  · intro hch
    rcases hch with hch | hch
    · have := hc2 hch
      omega
    · have := ho2 hch
      omega

/-- The condition/const-fold pass never raises the measure. -/
theorem condFoldLines_le (ls : List Line) :
    linesMeasure (condFoldLines ls).1 ≤ linesMeasure ls := by
  induction ls with
  | nil => simp [condFoldLines, linesMeasure]
  | cons l rest ih =>
    have h1 := condFoldLine_le l
    simp only [condFoldLines, linesMeasure, List.map_cons, List.sum_cons] at *
    omega

/-- A raised condition/const-fold flag means the measure strictly dropped
or some resulting line is a Noop. -/
theorem condFoldLines_changed (ls : List Line)
    (h : (condFoldLines ls).2 = true) :
    linesMeasure (condFoldLines ls).1 < linesMeasure ls ∨
      ∃ l ∈ (condFoldLines ls).1, l.operation.isNoop = true := by
  induction ls with
  | nil => simp [condFoldLines] at h
  | cons l rest ih =>
    have hle1 := condFoldLine_le l
    have hle2 := condFoldLines_le rest
    simp only [condFoldLines, Bool.or_eq_true] at h
    rcases h with h | h
    · rcases condFoldLine_changed l h with hlt | hnoop
      · left
        simp only [condFoldLines, linesMeasure, List.map_cons,
          List.sum_cons] at *
        omega
      · right
        exact ⟨(condFoldLine l).1, by simp [condFoldLines], hnoop⟩
    · rcases ih h with hlt | ⟨l1, hmem, hnoop⟩
      · left
        simp only [condFoldLines, linesMeasure, List.map_cons,
          List.sum_cons] at *
        omega
      · right
        exact ⟨l1, by simp [condFoldLines, hmem], hnoop⟩

/-- The read-analysis pass never raises the measure, and strictly lowers
it when it reports a change. -/
theorem read_fix_bound (written : List Nat) (ls : List Line) :
    linesMeasure (read_register_indices_also_fix written ls).1 ≤
        linesMeasure ls ∧
      ((read_register_indices_also_fix written ls).2.2 = true →
        linesMeasure (read_register_indices_also_fix written ls).1 <
          linesMeasure ls) := by
  induction ls with
  | nil => simp [read_register_indices_also_fix, linesMeasure]
  | cons l rest ih =>
    obtain ⟨h1, h1lt⟩ := fixLine_bound written l
    obtain ⟨h2, h2lt⟩ := ih
    simp only [read_register_indices_also_fix, linesMeasure, List.map_cons,
      List.sum_cons, Bool.or_eq_true] at *
    constructor
    · omega
    · intro hch
      rcases hch with hch | hch
      · have := h1lt hch
        omega
      · have := h2lt hch
        omega

/-- The dead-store pass never raises the measure. -/
theorem deadStore_le (ls : List Line) (ws : List (Option Nat))
    (reads : List Nat) :
    linesMeasure (deadStoreLines ls ws reads).1 ≤ linesMeasure ls := by
  induction ls generalizing ws with
  | nil => simp [deadStoreLines, linesMeasure]
  | cons l rest ih =>
    cases ws with
    | nil => simp [deadStoreLines]
    | cons w ws2 =>
      have hrec := ih ws2
      rcases w with _ | idx
      · simp only [deadStoreLines, linesMeasure, List.map_cons,
          List.sum_cons] at *
        omega
      · by_cases hr : reads.contains idx
        · simp only [deadStoreLines, hr, if_true, linesMeasure,
            List.map_cons, List.sum_cons] at *
          omega
        · have hw : lineWeight { l with operation := Operation.noop } ≤
              lineWeight l := by
            simp only [lineWeight, opWeight]
            omega
          simp only [deadStoreLines, hr, Bool.false_eq_true, if_false,
            linesMeasure, List.map_cons, List.sum_cons] at *
          omega

/-- A raised dead-store flag leaves a Noop line in the result. -/
theorem deadStore_changed_mem (ls : List Line) (ws : List (Option Nat))
    (reads : List Nat) (h : (deadStoreLines ls ws reads).2 = true) :
    ∃ l ∈ (deadStoreLines ls ws reads).1, l.operation.isNoop = true := by
  induction ls generalizing ws with
  | nil => simp [deadStoreLines] at h
  | cons l rest ih =>
    cases ws with
    | nil => simp [deadStoreLines] at h
    | cons w ws2 =>
      rcases w with _ | idx
      · simp only [deadStoreLines] at h ⊢
        obtain ⟨l1, hmem, hnoop⟩ := ih ws2 h
        exact ⟨l1, by simp [hmem], hnoop⟩
      · by_cases hr : reads.contains idx
        · simp only [deadStoreLines, hr, if_true] at h ⊢
          obtain ⟨l1, hmem, hnoop⟩ := ih ws2 h
          exact ⟨l1, by simp [hmem], hnoop⟩
        · simp only [deadStoreLines, hr, Bool.false_eq_true, if_false] at h ⊢
          exact ⟨{ l with operation := Operation.noop }, by simp,
            by simp [Operation.isNoop]⟩

/-- The truncation step never raises the measure. -/
theorem truncateAtReturn_le (ls : List Line) :
    linesMeasure (truncateAtReturn ls) ≤ linesMeasure ls := by
  unfold truncateAtReturn
  rcases ls.findIdx? Line.isUnconditionalReturn with _ | idx
  · exact le_refl _
  · exact linesMeasure_take_le _ ls

/-- The measure of a program built from a line list. -/
theorem measureP_mk (ls : List Line) : measureP ⟨ls⟩ = linesMeasure ls := rfl

/-- One loop iteration never raises the measure, and strictly lowers it
whenever it reports a change: the while-changed loop of Program::optimise
terminates within measureP p iterations. -/
theorem optimisePass_bound (p : Program) :
    measureP (optimisePass p).1 ≤ measureP p ∧
      ((optimisePass p).2 = true → measureP (optimisePass p).1 < measureP p) := by
  obtain ⟨m1le, m1lt⟩ :
      linesMeasure (strip_noops p.lines).1 ≤ linesMeasure p.lines ∧
        ((strip_noops p.lines).2 = true →
          linesMeasure (strip_noops p.lines).1 < linesMeasure p.lines) :=
    ⟨strip_noops_le _, strip_noops_lt _⟩
  set r1 := strip_noops p.lines with hr1
  obtain ⟨m2le, m2ch⟩ :
      linesMeasure (condFoldLines r1.1).1 ≤ linesMeasure r1.1 ∧
        ((condFoldLines r1.1).2 = true →
          linesMeasure (condFoldLines r1.1).1 < linesMeasure r1.1 ∨
            ∃ l ∈ (condFoldLines r1.1).1, l.operation.isNoop = true) :=
    ⟨condFoldLines_le _, condFoldLines_changed _⟩
  set r2 := condFoldLines r1.1 with hr2
  obtain ⟨m3le, m3lt⟩ :
      linesMeasure (strip_noops r2.1).1 ≤ linesMeasure r2.1 ∧
        ((strip_noops r2.1).2 = true →
          linesMeasure (strip_noops r2.1).1 < linesMeasure r2.1) :=
    ⟨strip_noops_le _, strip_noops_lt _⟩
  set r3 := strip_noops r2.1 with hr3
  obtain ⟨m4le, m4lt⟩ := read_fix_bound
    ((write_register_indices r3.1).filterMap id) r3.1
  set r4 := read_register_indices_also_fix
    ((write_register_indices r3.1).filterMap id) r3.1 with hr4
  have m5le := deadStore_le r4.1 (write_register_indices r3.1) r4.2.1
  have m5mem := deadStore_changed_mem r4.1 (write_register_indices r3.1) r4.2.1
  set r5 := deadStoreLines r4.1 (write_register_indices r3.1) r4.2.1 with hr5
  obtain ⟨m6le, m6lt⟩ :
      linesMeasure (strip_noops r5.1).1 ≤ linesMeasure r5.1 ∧
        ((strip_noops r5.1).2 = true →
          linesMeasure (strip_noops r5.1).1 < linesMeasure r5.1) :=
    ⟨strip_noops_le _, strip_noops_lt _⟩
  set r6 := strip_noops r5.1 with hr6
  have m7le := truncateAtReturn_le r6.1
  have hpass1 : (optimisePass p).1 = ⟨truncateAtReturn r6.1⟩ := rfl
  have hpass2 : (optimisePass p).2 =
      (r1.2 || r2.2 || r3.2 || r4.2.2 || r5.2 || r6.2) := rfl
  rw [hpass1, hpass2, measureP_mk,
    show measureP p = linesMeasure p.lines from rfl]
  constructor
  · omega
  · intro hch
    simp only [Bool.or_eq_true] at hch
    rcases hch with ((((hc | hc) | hc) | hc) | hc) | hc
    · have := m1lt hc
      omega
    · rcases m2ch hc with hlt | hmem
      · omega
      · obtain ⟨l, hl, hlnoop⟩ := hmem
        have : (strip_noops r2.1).2 = true :=
          strip_noops_flag_of_mem r2.1 l hl hlnoop
        have := m3lt this
        omega
    · have := m3lt hc
      omega
    · have := m4lt hc
      omega
    · obtain ⟨l, hl, hlnoop⟩ := m5mem hc
      have : (strip_noops r5.1).2 = true :=
        strip_noops_flag_of_mem r5.1 l hl hlnoop
      have := m6lt this
      omega
    · have := m6lt hc
      omega

/-- The loop result does not depend on the fuel once the fuel exceeds the
measure: any two sufficient fuels agree. -/
theorem optimiseLoop_stable (n : Nat) :
    ∀ (m : Nat) (p : Program), measureP p < n → measureP p < m →
      optimiseLoop n p = optimiseLoop m p := by
  induction n with
  | zero => intro m p hn; omega
  | succ n2 ih =>
    intro m p hn hm
    cases m with
    | zero => omega
    | succ m2 =>
      obtain ⟨hle, hlt⟩ := optimisePass_bound p
      rcases hp : optimisePass p with ⟨q, flag⟩
      rw [hp] at hle hlt
      cases flag
      · simp only [optimiseLoop, hp]
      · simp only [optimiseLoop, hp]
        have hq : measureP q < measureP p := hlt rfl
        exact ih m2 q (by omega) (by omega)

/-- Program::optimise is insensitive to the exact fuel: any fuel above the
measure gives the translation's result, so the fuelled loop is a faithful
rendering of the source's while-changed loop. -/
theorem optimise_fuel_insensitive (p : Program) (n : Nat)
    (h : measureP p < n) :
    Program.optimise p =
      ⟨(optimiseLoop n p).lines.map fun line =>
        { line with
          condition := line.condition.map Condition.enhance_readability }⟩ := by
  unfold Program.optimise
  rw [optimiseLoop_stable (measureP p + 1) n p (by omega) h]

/-- Witness for the fuel insensitivity at a concrete program and a larger
fuel. -/
theorem optimise_fuel_insensitive_witness :
    Program.optimise ⟨[⟨none, .ret .allow⟩, ⟨none, .noop⟩]⟩ =
      ⟨(optimiseLoop 1000 ⟨[⟨none, .ret .allow⟩, ⟨none, .noop⟩]⟩).lines.map
        fun line =>
          { line with
            condition := line.condition.map Condition.enhance_readability }⟩ :=
  optimise_fuel_insensitive ⟨[⟨none, .ret .allow⟩, ⟨none, .noop⟩]⟩ 1000
    (by decide)

end program

end CensorLab
